import Mathlib

/-!
Verification development for the Taxak2211/PDFtoExcel repository.

The development shallowly embeds the parts of the code that the claims
C1 to C10 are about:
* the per-line PII detector of src/App.tsx (line text construction,
  the coverRange rectangle synthesizer, the transaction-row and label
  gates, and the card-number and national-ID rule blocks);
* the redaction editor of src/components/RedactionPreview.tsx
  (draw commit, erase, move and resize, clear, history push, undo, redo);
* the extraction services of src/services/geminiService.ts and
  src/server/extractTransactions.js (batching, model fallback,
  rate-limit retry, and transaction normalization).

JavaScript numbers are modelled as Int: every operation the claims
touch (addition, subtraction, min, max, abs, comparisons) is exact on
integers and the fractional constants of the source (0.30, 0.25) are
handled by scaling both sides of the comparison by 10 or 4.
JavaScript regular expressions are modelled by a small backtracking
matcher over an explicit pattern AST; each regex of the source is
transliterated node by node into that AST.
-/

-- ### Generic list and string helpers

def updateAt {α : Type} : List α → Nat → (α → α) → List α
  | [], _, _ => []
  | a :: l, 0, f => f a :: l
  | a :: l, n + 1, f => a :: updateAt l n f

def isPrefixL : List Char → List Char → Bool
  | [], _ => true
  | _ :: _, [] => false
  | a :: l, b :: m => a == b && isPrefixL l m

def containsL (needle : List Char) : List Char → Bool
  | [] => isPrefixL needle []
  | c :: l => isPrefixL needle (c :: l) || containsL needle l

/-- JavaScript `hay.includes(needle)`. -/
def containsSubstring (hay needle : String) : Bool :=
  containsL needle.toList hay.toList

-- Executable models of the JavaScript string methods used by the
-- normalization code (the core library versions do not reduce inside
-- the kernel, so the ASCII behaviour is implemented directly).

def dropLeadingWs : List Char → List Char
  | [] => []
  | c :: cs => if c.isWhitespace then dropLeadingWs cs else c :: cs

/-- JavaScript `s.trim()`: strip leading and trailing whitespace. -/
def jsTrim (s : String) : String :=
  String.mk ((dropLeadingWs (dropLeadingWs s.toList).reverse).reverse)

def upChar (c : Char) : Char :=
  if 97 ≤ c.toNat && c.toNat ≤ 122 then Char.ofNat (c.toNat - 32) else c

def downChar (c : Char) : Char :=
  if 65 ≤ c.toNat && c.toNat ≤ 90 then Char.ofNat (c.toNat + 32) else c

/-- JavaScript `s.toUpperCase()` on ASCII text. -/
def jsToUpper (s : String) : String := String.mk (s.toList.map upChar)

/-- JavaScript `s.toLowerCase()` on ASCII text. -/
def jsToLower (s : String) : String := String.mk (s.toList.map downChar)

/-- `Math.min` over a nonempty list (the source only applies it to
nonempty spreads); an empty list gives the unused default 0. -/
def intMinList : List Int → Int
  | [] => 0
  | x :: l => l.foldl min x

/-- `Math.max` over a nonempty list; an empty list gives the unused
default 0. -/
def intMaxList : List Int → Int
  | [] => 0
  | x :: l => l.foldl max x

-- ### A small backtracking regex matcher
--
-- JavaScript regexes in the source use only: character classes,
-- literals (optionally case-insensitive), concatenation, alternation,
-- greedy `?`, greedy `*` over a group, bounded repetition, and the
-- word boundary `\b`.  The matcher below implements exactly these with
-- the JavaScript preference order (alternation left first, quantifiers
-- greedy), so the first match found at a position has the same span as
-- the one the JavaScript engine returns.  Recursion is bounded by an
-- explicit fuel that is chosen generously by the wrappers; fuel only
-- bounds the depth of the call stack, which for these patterns never
-- exceeds twice the pattern size times the input length.

inductive Pat where
  | epsP : Pat
  | clsP : (Char → Bool) → Pat
  | seqP : Pat → Pat → Pat
  | altP : Pat → Pat → Pat
  | starP : Pat → Pat
  | wbP : Pat

/-- JavaScript word character `\w`. -/
def isWordChar (c : Char) : Bool := c.isAlpha || c.isDigit || c == '_'

/-- JavaScript `\b`: exactly one side of the current position is a word
character (`prev` is the character before the position, the head of
`s` the one after). -/
def isBoundary (prev : Option Char) (s : List Char) : Bool :=
  (match prev with | some c => isWordChar c | none => false)
    != (match s with | c :: _ => isWordChar c | [] => false)

def patSize : Pat → Nat
  | Pat.epsP => 1
  | Pat.clsP _ => 1
  | Pat.seqP p q => patSize p + patSize q + 1
  | Pat.altP p q => patSize p + patSize q + 1
  | Pat.starP p => patSize p + 1
  | Pat.wbP => 1

/-- CPS matcher: `matM fuel p prev s k` tries to match `p` at the start
of `s` (with `prev` the character just before `s`) and passes the rest
to the continuation `k`; the first success in JavaScript preference
order wins.  `starP` is greedy and, like the JavaScript engine, stops
iterating when an iteration consumes nothing. -/
def matM : Nat → Pat → Option Char → List Char → (Option Char → List Char → Option Nat) → Option Nat
  | 0, _, _, _, _ => none
  | fuel + 1, p, prev, s, k =>
    match p with
    | Pat.epsP => k prev s
    | Pat.clsP f =>
      match s with
      | [] => none
      | c :: cs => if f c then k (some c) cs else none
    | Pat.seqP p1 p2 => matM fuel p1 prev s (fun pr s2 => matM fuel p2 pr s2 k)
    | Pat.altP p1 p2 =>
      (matM fuel p1 prev s k).orElse (fun _ => matM fuel p2 prev s k)
    | Pat.starP p1 =>
      (matM fuel p1 prev s (fun pr s2 =>
        if s2.length < s.length then matM fuel (Pat.starP p1) pr s2 k else none)).orElse
        (fun _ => k prev s)
    | Pat.wbP => if isBoundary prev s then k prev s else none

/-- Length of the first (JavaScript-preferred) match of `p` at the
start of `s`, if any. -/
def matchLenAt (p : Pat) (prev : Option Char) (s : List Char) : Option Nat :=
  matM (2 * (patSize p + 1) * (s.length + 2) + 4) p prev s
    (fun _ rem => some (s.length - rem.length))

/-- `regex.test(s)`: a match exists somewhere in `s`. -/
def rtestAux (p : Pat) : Option Char → List Char → Bool
  | prev, [] => (matchLenAt p prev []).isSome
  | prev, c :: cs => (matchLenAt p prev (c :: cs)).isSome || rtestAux p (some c) cs

def rtest (p : Pat) (s : String) : Bool := rtestAux p none s.toList

/-- The `while ((m = re.exec(text)) !== null)` loop over a regex with
the global flag: successive leftmost matches, resuming after the end of
each match.  Returns the list of `(m.index, m[0].length)` pairs.  None
of the embedded patterns can match the empty string; a zero-length
match stops the scan. -/
def execAllAux (p : Pat) : Nat → Option Char → List Char → Nat → List (Nat × Nat)
  | 0, _, _, _ => []
  | fuel + 1, prev, s, pos =>
    match matchLenAt p prev s with
    | some len =>
      if len == 0 then []
      else (pos, len) :: execAllAux p fuel ((s.take len).getLast?) (s.drop len) (pos + len)
    | none =>
      match s with
      | [] => []
      | c :: cs => execAllAux p fuel (some c) cs (pos + 1)

def execAll (p : Pat) (s : String) : List (Nat × Nat) :=
  execAllAux p (s.toList.length + 1) none s.toList 0

-- ### Pattern builders

def seqList : List Pat → Pat
  | [] => Pat.epsP
  | [p] => p
  | p :: ps => Pat.seqP p (seqList ps)

def altList : List Pat → Pat
  | [] => Pat.clsP (fun _ => false)
  | [p] => p
  | p :: ps => Pat.altP p (altList ps)

def optP (p : Pat) : Pat := Pat.altP p Pat.epsP

/-- ASCII lowercase code of a character, for case-insensitive literals. -/
def charDownNat (c : Char) : Nat :=
  if 65 ≤ c.toNat && c.toNat ≤ 90 then c.toNat + 32 else c.toNat

def litC (c : Char) : Pat := Pat.clsP (fun x => x == c)

def litCI (c : Char) : Pat := Pat.clsP (fun x => charDownNat x == charDownNat c)

def litStr (t : String) : Pat := seqList (t.toList.map litC)

def litStrCI (t : String) : Pat := seqList (t.toList.map litCI)

def repExact (p : Pat) (n : Nat) : Pat := seqList (List.replicate n p)

/-- `p{m,n}`: `m` mandatory copies followed by `n - m` greedy optional
copies (same preference order as the JavaScript greedy quantifier). -/
def repRange (p : Pat) (m n : Nat) : Pat :=
  seqList (List.replicate m p ++ List.replicate (n - m) (optP p))

def digitP : Pat := Pat.clsP Char.isDigit

def alphaP : Pat := Pat.clsP Char.isAlpha

def alnumP : Pat := Pat.clsP (fun c => c.isAlpha || c.isDigit)

/-- JavaScript `\s`, restricted to the whitespace characters that can
occur in the extracted line text. -/
def wsChar (c : Char) : Bool := c == ' ' || c == '\t' || c == '\n' || c == '\r'

def wsP : Pat := Pat.clsP wsChar

def wsStar : Pat := Pat.starP wsP

def wsPlus : Pat := Pat.seqP wsP wsStar

def clsOf (cs : List Char) : Pat := Pat.clsP (fun c => cs.contains c)

-- ### The concrete regexes of src/App.tsx, transliterated
--
-- Each definition below corresponds to one regex literal of
-- src/App.tsx (the source line is given in the comment).

/-- Line 194, `dateAnywhereRegex`:
`\b(\d{1,2}[\/\-]\d{1,2}[\/\-]\d{2,4}|\d{1,2}\s+[A-Za-z]{3}\s+\d{2,4}|[A-Za-z]{3}\s+\d{1,2},?\s+\d{2,4}|\d{4}[\/\-]\d{1,2}[\/\-]\d{1,2})\b`. -/
def dateSepP : Pat := clsOf ['/', '-']

def dateAlt1 : Pat :=
  seqList [repRange digitP 1 2, dateSepP, repRange digitP 1 2, dateSepP, repRange digitP 2 4]

def dateAlt2 : Pat :=
  seqList [repRange digitP 1 2, wsPlus, repExact alphaP 3, wsPlus, repRange digitP 2 4]

def dateAlt3 : Pat :=
  seqList [repExact alphaP 3, wsPlus, repRange digitP 1 2, optP (litC ','), wsPlus, repRange digitP 2 4]

def dateAlt4 : Pat :=
  seqList [repExact digitP 4, dateSepP, repRange digitP 1 2, dateSepP, repRange digitP 1 2]

def dateAnywherePat : Pat :=
  seqList [Pat.wbP, altList [dateAlt1, dateAlt2, dateAlt3, dateAlt4], Pat.wbP]

/-- Line 192, `tableHeaderTokens`:
`(Date|Posting\s*Date|Value\s*Date|Transaction\s*Date|Description|Narration|Particulars|Transaction|Type|Debit|Credit|Amount|Balance|Ref\.?|Reference|Chq\.?|Cheque|Check)` with flag `i`. -/
def tableHeaderPat : Pat := altList [
  litStrCI "Date",
  seqList [litStrCI "Posting", wsStar, litStrCI "Date"],
  seqList [litStrCI "Value", wsStar, litStrCI "Date"],
  seqList [litStrCI "Transaction", wsStar, litStrCI "Date"],
  litStrCI "Description", litStrCI "Narration", litStrCI "Particulars",
  litStrCI "Transaction", litStrCI "Type", litStrCI "Debit", litStrCI "Credit",
  litStrCI "Amount", litStrCI "Balance",
  Pat.seqP (litStrCI "Ref") (optP (litC '.')),
  litStrCI "Reference",
  Pat.seqP (litStrCI "Chq") (optP (litC '.')),
  litStrCI "Cheque", litStrCI "Check"]

/-- Line 193, `transactionTokens`:
`(UPI|IMPS|NEFT|RTGS|ACH|NACH|ATM|POS|PURCHASE|WITHDRAWAL|DEPOSIT|INTEREST|FEE|CHARGE|PAYMENT|TRANSFER|TXN|TRN|AUTH|POSTED|SETTLED|PENDING|CLEARED|REFUND|CASHBACK)` with flag `i`. -/
def transactionPat : Pat := altList [
  litStrCI "UPI", litStrCI "IMPS", litStrCI "NEFT", litStrCI "RTGS",
  litStrCI "ACH", litStrCI "NACH", litStrCI "ATM", litStrCI "POS",
  litStrCI "PURCHASE", litStrCI "WITHDRAWAL", litStrCI "DEPOSIT",
  litStrCI "INTEREST", litStrCI "FEE", litStrCI "CHARGE", litStrCI "PAYMENT",
  litStrCI "TRANSFER", litStrCI "TXN", litStrCI "TRN", litStrCI "AUTH",
  litStrCI "POSTED", litStrCI "SETTLED", litStrCI "PENDING", litStrCI "CLEARED",
  litStrCI "REFUND", litStrCI "CASHBACK"]

/-- Line 195, `moneyRegex`:
`(?:INR|Rs\.?|CAD|USD|EUR|GBP|AUD|NZD|\$|₹|£|€|¥)?\s?-?\d{1,3}(?:,\d{3})*(?:\.\d{2})?\s?(?:CR|DR)?` with flag `i`. -/
def currencyAltPat : Pat := altList [
  litStrCI "INR", Pat.seqP (litStrCI "Rs") (optP (litC '.')),
  litStrCI "CAD", litStrCI "USD", litStrCI "EUR", litStrCI "GBP",
  litStrCI "AUD", litStrCI "NZD",
  litC '$', litC '₹', litC '£', litC '€', litC '¥']

def moneyPat : Pat := seqList [
  optP currencyAltPat, optP wsP, optP (litC '-'),
  repRange digitP 1 3,
  Pat.starP (seqList [litC ',', repExact digitP 3]),
  optP (seqList [litC '.', repExact digitP 2]),
  optP wsP,
  optP (Pat.altP (litStrCI "CR") (litStrCI "DR"))]

/-- Line 191, `labelTokens`:
`(Card|Visa|Mastercard|Amex|American\s*Express|Account|Acc\.?|A\/C|Acct\.?|Client|Customer|CIF|CRN|IBAN|Account\s*No\.?|Acct\s*No\.?|ending|xxxx|masked|last\s*4)` with flag `i`. -/
def labelTokensPat : Pat := altList [
  litStrCI "Card", litStrCI "Visa", litStrCI "Mastercard", litStrCI "Amex",
  seqList [litStrCI "American", wsStar, litStrCI "Express"],
  litStrCI "Account",
  Pat.seqP (litStrCI "Acc") (optP (litC '.')),
  seqList [litCI 'A', litC '/', litCI 'C'],
  Pat.seqP (litStrCI "Acct") (optP (litC '.')),
  litStrCI "Client", litStrCI "Customer", litStrCI "CIF", litStrCI "CRN",
  litStrCI "IBAN",
  seqList [litStrCI "Account", wsStar, litStrCI "No", optP (litC '.')],
  seqList [litStrCI "Acct", wsStar, litStrCI "No", optP (litC '.')],
  litStrCI "ending", litStrCI "xxxx", litStrCI "masked",
  seqList [litStrCI "last", wsStar, litC '4']]

/-- Line 152, `cardRegex`: `(?:\d[\s\-\*xX+]?){13,19}` with flag `g`. -/
def cardSepP : Pat := clsOf [' ', '\t', '\n', '\r', '-', '*', 'x', 'X', '+']

def cardUnitP : Pat := Pat.seqP digitP (optP cardSepP)

def cardPat : Pat := repRange cardUnitP 13 19

/-- Line 153, `maskedCardRegex`:
`(?:\*{4}|\d{4})[\s\-]?(?:\*{4}|\d{4})[\s\-]?(?:\*{4}|\d{4})[\s\-]?(?:\*{4}|\d{4})` with flags `gi`. -/
def fourStarsP : Pat := repExact (litC '*') 4

def fourDigitsP : Pat := repExact digitP 4

def maskedGroupP : Pat := Pat.altP fourStarsP fourDigitsP

def maskedSepP : Pat := optP (clsOf [' ', '\t', '\n', '\r', '-'])

def maskedCardPat : Pat :=
  seqList [maskedGroupP, maskedSepP, maskedGroupP, maskedSepP, maskedGroupP, maskedSepP, maskedGroupP]

/-- Line 154, `partialCardRegex`:
`(?:ending\s*(?:in\s*)?|last\s*(?:4|four)\s*(?:digits?)?\s*[:\s]?|x{4,}\s*)(\d{4})` with flags `gi`. -/
def partialCardPat : Pat :=
  Pat.seqP
    (altList [
      seqList [litStrCI "ending", wsStar, optP (seqList [litStrCI "in", wsStar])],
      seqList [litStrCI "last", wsStar, Pat.altP (litC '4') (litStrCI "four"), wsStar,
        optP (Pat.seqP (litStrCI "digit") (optP (litCI 's'))), wsStar,
        optP (clsOf [':', ' ', '\t', '\n', '\r'])],
      seqList [repExact (litCI 'x') 4, Pat.starP (litCI 'x'), wsStar]])
    fourDigitsP

/-- Line 164, `ifscRegex`: `\b[A-Z]{4}0[A-Z0-9]{6}\b` with flags `gi`. -/
def ifscPat : Pat :=
  seqList [Pat.wbP, repExact alphaP 4, litC '0', repExact alnumP 6, Pat.wbP]

/-- Line 165, `panRegex`: `\b[A-Z]{5}\d{4}[A-Z]\b` with flags `gi`. -/
def panPat : Pat :=
  seqList [Pat.wbP, repExact alphaP 5, repExact digitP 4, alphaP, Pat.wbP]

/-- Line 166, `aadharRegex`: `\b\d{4}[\s\-]?\d{4}[\s\-]?\d{4}\b` with flag `g`. -/
def idSepP : Pat := optP (clsOf [' ', '\t', '\n', '\r', '-'])

def aadharPat : Pat :=
  seqList [Pat.wbP, fourDigitsP, idSepP, fourDigitsP, idSepP, fourDigitsP, Pat.wbP]

/-- Line 167, `sinRegex`: `\b\d{3}[\s\-]?\d{3}[\s\-]?\d{3}\b` with flag `g`. -/
def sinPat : Pat :=
  seqList [Pat.wbP, repExact digitP 3, idSepP, repExact digitP 3, idSepP, repExact digitP 3, Pat.wbP]

/-- Line 168, `ssnRegex`: `\b\d{3}[\s\-]?\d{2}[\s\-]?\d{4}\b` with flag `g`. -/
def ssnPat : Pat :=
  seqList [Pat.wbP, repExact digitP 3, idSepP, repExact digitP 2, idSepP, fourDigitsP, Pat.wbP]

/-- Line 169, `ninRegex`: `\b[A-Z]{2}\d{6}[A-Z]?\b` with flags `gi`. -/
def ninPat : Pat :=
  seqList [Pat.wbP, repExact alphaP 2, repExact digitP 6, optP alphaP, Pat.wbP]

/-- Line 351 gate of the IFSC block: `/IFSC/i`. -/
def ifscLabelPat : Pat := litStrCI "IFSC"

/-- Line 358 gate of the PAN block: `/\bPAN\b/i`. -/
def panLabelPat : Pat := seqList [Pat.wbP, litStrCI "PAN", Pat.wbP]

/-- Line 365 gate of the Aadhaar block: `/\bAadhaar\b/i`. -/
def aadhaarLabelPat : Pat := seqList [Pat.wbP, litStrCI "Aadhaar", Pat.wbP]

/-- Line 374 gate of the SSN/SIN/NIN block:
`\b(SSN|Social\s*Security|SIN|Social\s*Insurance|NIN|National\s*Insurance)\b` with flag `i`. -/
def ssnLabelPat : Pat :=
  seqList [Pat.wbP,
    altList [
      litStrCI "SSN",
      seqList [litStrCI "Social", wsStar, litStrCI "Security"],
      litStrCI "SIN",
      seqList [litStrCI "Social", wsStar, litStrCI "Insurance"],
      litStrCI "NIN",
      seqList [litStrCI "National", wsStar, litStrCI "Insurance"]],
    Pat.wbP]

-- ### Data model of the per-line PII detector (src/App.tsx 111-447)

/-- `PositionedItem` of src/App.tsx 111-117: one positioned text
fragment in page-raster coordinates. -/
structure PositionedItem where
  text : String
  x : Int
  yTop : Int
  width : Int
  height : Int
deriving DecidableEq

inductive RectSource where
  | auto
  | manual
deriving DecidableEq

/-- `RedactionRect` of src/types.ts. -/
structure RedactionRect where
  id : String
  x : Int
  y : Int
  width : Int
  height : Int
  source : RectSource
deriving DecidableEq

/-- One entry of the `ranges` array built at src/App.tsx 223-241;
`stop` is the field called `end` in the source (a Lean keyword). -/
structure RangeEntry where
  start : Nat
  stop : Nat
  item : PositionedItem
deriving DecidableEq

/-- The line-text and character-range construction of
src/App.tsx 222-241: walk the fragments of a line left to right,
inserting one space character whenever the horizontal gap to the
previous fragment exceeds `Math.max(2, prev.height * 0.25)` (stated
below with both sides scaled by 4: `4 * gap > max 8 prev.height`). -/
def buildRangesAux : List PositionedItem → Option PositionedItem → Nat → String → List RangeEntry →
    String × List RangeEntry
  | [], _, _, text, acc => (text, acc)
  | cur :: rest, prev, cursor, text, acc =>
    let spaced :=
      match prev with
      | some p =>
        let gap := cur.x - (p.x + p.width)
        if 4 * gap > max 8 p.height then (text ++ " ", cursor + 1) else (text, cursor)
      | none => (text, cursor)
    let start := spaced.2
    let text2 := spaced.1 ++ cur.text
    let cursor2 := spaced.2 + cur.text.length
    buildRangesAux rest (some cur) cursor2 text2 (acc ++ [⟨start, cursor2, cur⟩])

def buildRanges (line : List PositionedItem) : String × List RangeEntry :=
  buildRangesAux line none 0 "" []

/-- The filter predicate of `coverRange` (src/App.tsx 245):
`r.end > startIdx && r.start < endIdx`. -/
def rangeHits (startIdx endIdx : Nat) (r : RangeEntry) : Bool :=
  decide (startIdx < r.stop) && decide (r.start < endIdx)

/-- `coverRange` of src/App.tsx 244-263, with the enclosing mutable
state (`rects`, `redactionCount`, the page number `i`, `lineIdx` and
the `ranges` array) passed explicitly.  The Boolean return value of the
source is ignored by all call sites and is dropped here. -/
def coverRange (pageNum lineIdx : Nat) (ranges : List RangeEntry)
    (rects : List RedactionRect) (redactionCount : Nat)
    (startIdx endIdx : Nat) : List RedactionRect × Nat :=
  let covered := ranges.filter (rangeHits startIdx endIdx)
  match covered with
  | [] => (rects, redactionCount)
  | c0 :: _ =>
    let minX := intMinList (covered.map (fun c => c.item.x))
    let maxX := intMaxList (covered.map (fun c => c.item.x + c.item.width))
    let maxH := intMaxList (covered.map (fun c => c.item.height))
    let yTop := c0.item.yTop
    let yCanvas := yTop - maxH
    let pad : Int := 2
    let rid := toString pageNum ++ "-" ++ toString lineIdx ++ "-" ++ toString startIdx
      ++ "-" ++ toString endIdx ++ "-" ++ toString rects.length
    (rects ++ [{ id := rid, x := minX - pad, y := yCanvas - pad,
                 width := (maxX - minX) + pad * 2, height := maxH + pad * 2,
                 source := RectSource.auto }],
     redactionCount + 1)

/-- Submit every match of a pattern to `coverRange`
(the `while ((m = re.exec(lineText)) !== null) coverRange(m.index,
m.index + m[0].length)` loops of src/App.tsx). -/
def applyMatches (p : Pat) (pageNum lineIdx : Nat) (ranges : List RangeEntry)
    (lineText : String) (st : List RedactionRect × Nat) : List RedactionRect × Nat :=
  (execAll p lineText).foldl
    (fun acc m => coverRange pageNum lineIdx ranges acc.1 acc.2 m.1 (m.1 + m.2)) st

-- ### The per-line gates (src/App.tsx 266-274)

/-- Line 271: `topRegion = yCanvas < viewport.height * 0.30` where
`yCanvas = (line[0]?.yTop ?? 0) - Math.max(...line.map(i => i.height))`
(the line is already sorted by x).  Stated with both sides scaled
by 10. -/
def topRegionOf (line : List PositionedItem) (pageHeight : Int) : Bool :=
  let maxH := intMaxList (line.map (fun it => it.height))
  let yTop := match line with | it :: _ => it.yTop | [] => 0
  let yCanvas := yTop - maxH
  decide (10 * yCanvas < 3 * pageHeight)

/-- Line 273: `looksLikeTxn = dateAnywhereRegex.test(lineText) &&
(tableHeaderTokens.test(lineText) || transactionTokens.test(lineText)
|| moneyRegex.test(lineText))`. -/
def looksLikeTxn (lineText : String) : Bool :=
  rtest dateAnywherePat lineText &&
    (rtest tableHeaderPat lineText || rtest transactionPat lineText ||
      rtest moneyPat lineText)

/-- Line 274: `hasLabel = labelTokens.test(lineText)`. -/
def hasLabel (lineText : String) : Bool := rtest labelTokensPat lineText

-- ### Rule blocks of the detector

/-- Rule 3 of the detector (src/App.tsx 313-334): card numbers, gated
by `(topRegion || hasLabel) && !looksLikeTxn`.  The `cardFoundOnLine`
flag only feeds rule 9 and is not needed by the claims. -/
def cardRule (topRegion : Bool) (pageNum lineIdx : Nat) (ranges : List RangeEntry)
    (lineText : String) (st : List RedactionRect × Nat) : List RedactionRect × Nat :=
  if (topRegion || hasLabel lineText) && !looksLikeTxn lineText then
    applyMatches partialCardPat pageNum lineIdx ranges lineText
      (applyMatches maskedCardPat pageNum lineIdx ranges lineText
        (applyMatches cardPat pageNum lineIdx ranges lineText st))
  else st

/-- The character ranges emitted by rule 3, in emission order. -/
def cardRuleRanges (topRegion : Bool) (lineText : String) : List (Nat × Nat) :=
  if (topRegion || hasLabel lineText) && !looksLikeTxn lineText then
    execAll cardPat lineText ++ execAll maskedCardPat lineText ++
      execAll partialCardPat lineText
  else []

/-- IFSC part of rule 5 (src/App.tsx 351-357), gated by
`(topRegion || /IFSC/i.test(lineText)) && !looksLikeTxn`. -/
def ifscRule (topRegion : Bool) (pageNum lineIdx : Nat) (ranges : List RangeEntry)
    (lineText : String) (st : List RedactionRect × Nat) : List RedactionRect × Nat :=
  if (topRegion || rtest ifscLabelPat lineText) && !looksLikeTxn lineText then
    applyMatches ifscPat pageNum lineIdx ranges lineText st
  else st

/-- PAN part of rule 5 (src/App.tsx 358-364), gated by
`(topRegion || /\bPAN\b/i.test(lineText)) && !looksLikeTxn`. -/
def panRule (topRegion : Bool) (pageNum lineIdx : Nat) (ranges : List RangeEntry)
    (lineText : String) (st : List RedactionRect × Nat) : List RedactionRect × Nat :=
  if (topRegion || rtest panLabelPat lineText) && !looksLikeTxn lineText then
    applyMatches panPat pageNum lineIdx ranges lineText st
  else st

/-- Aadhaar part of rule 5 (src/App.tsx 365-371), gated by
`(topRegion || /\bAadhaar\b/i.test(lineText)) && !looksLikeTxn`. -/
def aadhaarRule (topRegion : Bool) (pageNum lineIdx : Nat) (ranges : List RangeEntry)
    (lineText : String) (st : List RedactionRect × Nat) : List RedactionRect × Nat :=
  if (topRegion || rtest aadhaarLabelPat lineText) && !looksLikeTxn lineText then
    applyMatches aadharPat pageNum lineIdx ranges lineText st
  else st

/-- Rule 6 (src/App.tsx 374-388): SSN, SIN and NIN, gated by the
explicit label regex and `!looksLikeTxn`; no top-region shortcut. -/
def ssnSinNinRule (pageNum lineIdx : Nat) (ranges : List RangeEntry)
    (lineText : String) (st : List RedactionRect × Nat) : List RedactionRect × Nat :=
  if rtest ssnLabelPat lineText && !looksLikeTxn lineText then
    applyMatches ninPat pageNum lineIdx ranges lineText
      (applyMatches sinPat pageNum lineIdx ranges lineText
        (applyMatches ssnPat pageNum lineIdx ranges lineText st))
  else st

-- ### Redaction editor model (src/components/RedactionPreview.tsx)

/-- `RedactionPage` of src/types.ts: the base bitmap is an opaque data
URL, modelled as its string. -/
structure RedactionPage where
  baseImage : String
  rects : List RedactionRect
deriving DecidableEq

/-- The state of the RedactionPreview component that the claims are
about: the live pages (the `pages` prop kept by `onUpdate`), the
history snapshot list and the history cursor
(src/components/RedactionPreview.tsx 24-26).  `JSON.parse(JSON.stringify(p))`
deep copies are the identity on this structural model. -/
structure EditorState where
  pages : List RedactionPage
  history : List (List RedactionPage)
  historyIndex : Nat
deriving DecidableEq

/-- Initial state (src/components/RedactionPreview.tsx 25-26 and the
reset effect at 28-33): one snapshot holding a deep copy of the pages,
cursor 0. -/
def initE (pages : List RedactionPage) : EditorState :=
  { pages := pages, history := [pages], historyIndex := 0 }

/-- `pushHistory` (src/components/RedactionPreview.tsx 35-40): truncate
after the cursor, append a deep copy, move the cursor to the new end.
Does not touch the live pages. -/
def pushHistoryE (newPages : List RedactionPage) (st : EditorState) : EditorState :=
  let next := st.history.take (st.historyIndex + 1) ++ [newPages]
  { st with history := next, historyIndex := next.length - 1 }

/-- A discrete edit commit: every committing handler calls
`onUpdate(updated)` followed by `pushHistory(updated)`. -/
def commitE (updated : List RedactionPage) (st : EditorState) : EditorState :=
  pushHistoryE updated { st with pages := updated }

/-- `undo` (src/components/RedactionPreview.tsx 45-50): no-op unless
`historyIndex > 0`; otherwise decrement the cursor and restore that
snapshot as the live pages. -/
def undoE (st : EditorState) : EditorState :=
  if 0 < st.historyIndex then
    { st with historyIndex := st.historyIndex - 1,
              pages := st.history.getD (st.historyIndex - 1) [] }
  else st

/-- `redo` (src/components/RedactionPreview.tsx 51-56): no-op unless
`historyIndex < history.length - 1`. -/
def redoE (st : EditorState) : EditorState :=
  if st.historyIndex + 1 < st.history.length then
    { st with historyIndex := st.historyIndex + 1,
              pages := st.history.getD (st.historyIndex + 1) [] }
  else st

def undoN : Nat → EditorState → EditorState
  | 0, st => st
  | n + 1, st => undoN n (undoE st)

def redoN : Nat → EditorState → EditorState
  | 0, st => st
  | n + 1, st => redoN n (redoE st)

/-- States reachable through the committed editor operations (initial
render, discrete edit commits, undo, redo).  In-progress drag updates
are deliberately not steps here: claim C6 speaks of states reached
after sequences of commits. -/
inductive ReachableE : EditorState → Prop where
  | init : ∀ pages, ReachableE (initE pages)
  | commit : ∀ st updated, ReachableE st → ReachableE (commitE updated st)
  | undoStep : ∀ st, ReachableE st → ReachableE (undoE st)
  | redoStep : ∀ st, ReachableE st → ReachableE (redoE st)

/-- The history invariant of the claims: `0 ≤ cursor < snapshots.length`
(the lower bound is inherent to Nat). -/
def cursorInv (st : EditorState) : Prop :=
  st.historyIndex < st.history.length

/-- The live pages agree with the snapshot under the cursor; holds in
every `ReachableE` state. -/
def liveInv (st : EditorState) : Prop :=
  st.history.getD st.historyIndex [] = st.pages

-- ### Editor gestures

/-- Point-in-rectangle test of the erase and select handlers
(`x >= r.x && x <= r.x + r.width && y >= r.y && y <= r.y + r.height`). -/
def containsPt (r : RedactionRect) (x y : Int) : Bool :=
  decide (r.x ≤ x) && decide (x ≤ r.x + r.width) &&
    decide (r.y ≤ y) && decide (y ≤ r.y + r.height)

/-- Index of the top-most (last inserted) rectangle containing the
point: the `for (let i = rects.length - 1; i >= 0; i--)` walk of
src/components/RedactionPreview.tsx 91-102 and 373-384. -/
def lastIdxContainingAux (x y : Int) : List RedactionRect → Nat → Option Nat
  | [], _ => none
  | r :: rs, i =>
    match lastIdxContainingAux x y rs (i + 1) with
    | some j => some j
    | none => if containsPt r x y then some i else none

def lastIdxContaining (rects : List RedactionRect) (x y : Int) : Option Nat :=
  lastIdxContainingAux x y rects 0

def emptyPage : RedactionPage := { baseImage := "", rects := [] }

/-- The draw-release commit shared by `handleMouseUp`
(src/components/RedactionPreview.tsx 115-134) and
`handleCanvasTouchEnd` (482-516): normalize the dragged rectangle to a
min-corner plus absolute extents, discard it when either extent is
below 4, otherwise append a manual rectangle and commit one history
snapshot.  The id built from `Date.now()` and `Math.random()` is passed
in as `newId`. -/
def drawRelease (pageIdx : Nat) (startX startY x2 y2 : Int) (newId : String)
    (st : EditorState) : EditorState :=
  if abs (x2 - startX) < 4 ∨ abs (y2 - startY) < 4 then st
  else
    commitE (updateAt st.pages pageIdx (fun p => { p with rects := p.rects ++
      [{ id := newId, x := min startX x2, y := min startY y2,
         width := abs (x2 - startX), height := abs (y2 - startY),
         source := RectSource.manual }] })) st

/-- Click-to-erase (src/components/RedactionPreview.tsx 83-103, same
logic in the touch handler): remove the top-most rectangle containing
the point, no-op when none contains it. -/
def eraseAtPoint (pageIdx : Nat) (x y : Int) (st : EditorState) : EditorState :=
  match lastIdxContaining (st.pages.getD pageIdx emptyPage).rects x y with
  | none => st
  | some i =>
    commitE (updateAt st.pages pageIdx (fun p => { p with rects := p.rects.eraseIdx i })) st

/-- `handleEraseClick` (src/components/RedactionPreview.tsx 136-141)
and the keyboard delete-selected branch (68-76): drop the rectangle
with the given id and commit. -/
def eraseById (pageIdx : Nat) (rectId : String) (st : EditorState) : EditorState :=
  commitE
    (updateAt st.pages pageIdx (fun p => { p with rects := p.rects.filter (fun r => r.id ≠ rectId) }))
    st

/-- `handleClearPage` (src/components/RedactionPreview.tsx 632-637). -/
def clearPage (pageIdx : Nat) (st : EditorState) : EditorState :=
  commitE (updateAt st.pages pageIdx (fun p => { p with rects := [] })) st

/-- The clear-all button (src/components/RedactionPreview.tsx 674-681). -/
def clearAll (st : EditorState) : EditorState :=
  commitE (st.pages.map (fun p => { p with rects := [] })) st

inductive Corner where
  | nw
  | ne
  | sw
  | se
deriving DecidableEq

/-- The move transformation of the select drag
(src/components/RedactionPreview.tsx 221-223), applied to the rectangle
found by id: `r.x = orig.x + dx; r.y = orig.y + dy`. -/
def moveRect (orig : RedactionRect) (dx dy : Int) (r : RedactionRect) : RedactionRect :=
  { r with x := orig.x + dx, y := orig.y + dy }

/-- The resize transformation of the select drag
(src/components/RedactionPreview.tsx 224-253): recompute the rectangle
from the dragged corner, flip the anchor when an extent goes negative,
then clamp both extents to a minimum of 4. -/
def resizeRect (orig : RedactionRect) (corner : Corner) (dx dy : Int)
    (r : RedactionRect) : RedactionRect :=
  let r1 :=
    match corner with
    | Corner.nw =>
      let newX := orig.x + dx
      let newY := orig.y + dy
      { r with width := orig.width + (orig.x - newX), height := orig.height + (orig.y - newY),
               x := newX, y := newY }
    | Corner.ne =>
      let newY := orig.y + dy
      { r with width := orig.width + dx, height := orig.height + (orig.y - newY), y := newY }
    | Corner.sw =>
      let newX := orig.x + dx
      { r with width := orig.width + (orig.x - newX), height := orig.height + dy, x := newX }
    | Corner.se => { r with width := orig.width + dx, height := orig.height + dy }
  let r2 := if r1.width < 0 then { r1 with x := r1.x + r1.width, width := abs r1.width } else r1
  let r3 := if r2.height < 0 then { r2 with y := r2.y + r2.height, height := abs r2.height } else r2
  { r3 with width := max 4 r3.width, height := max 4 r3.height }

/-- The in-progress select-drag update (`handleMouseMove` under an
active drag, src/components/RedactionPreview.tsx 207-257): replace the
dragged rectangle by its transformed copy; updates the live pages only,
no history commit. -/
def selectDragUpdate (pageIdx : Nat) (rectId : String)
    (f : RedactionRect → RedactionRect) (st : EditorState) : EditorState :=
  match (st.pages.getD pageIdx emptyPage).rects.findIdx? (fun r => r.id == rectId) with
  | none => st
  | some i =>
    { st with pages := updateAt st.pages pageIdx (fun p => { p with rects := updateAt p.rects i f }) }

-- ### Compositor (src/App.tsx 544-567)

/-- One exported bitmap: a fresh canvas on which the base image was
drawn and then every rectangle filled in list order
(`ctx.drawImage(img, 0, 0)` followed by `ctx.fillRect` per rectangle). -/
structure OutputBitmap where
  base : String
  fills : List RedactionRect
deriving DecidableEq

/-- `rasterizeWithRects` (src/App.tsx 544-567): map each page to a new
output bitmap; the pages themselves are read only. -/
def rasterizeWithRects (pages : List RedactionPage) : List OutputBitmap :=
  pages.map (fun p => { base := p.baseImage, fills := p.rects })

-- ### Extraction services
-- (src/services/geminiService.ts and src/server/extractTransactions.js)

/-- `Transaction` of src/types.ts.  Monetary amounts are opaque to the
claims and modelled as integers. -/
structure Transaction where
  date : String
  description : String
  debit : Option Int
  credit : Option Int
  balance : Option Int
  currency : Option String
  category : Option String
deriving DecidableEq

/-- The allowed category set, in insertion order
(src/services/geminiService.ts 123-125, identical in the server file). -/
def allowedCategories : List String :=
  ["Bills & Utilities", "Car rental", "EMI", "Entertainment", "Fees",
   "Food & Dining", "Gas", "Groceries", "Personal Care", "Healthcare",
   "Insurance", "Investment", "Rent", "Shopping", "Transportation",
   "Travel", "Other"]

-- The per-record normalization of src/services/geminiService.ts
-- 127-140 (the server normalizeTransactions at
-- src/server/extractTransactions.js 76-96 is identical), split into its
-- two independent field updates.

/-- The currency half of the per-record normalization: the JavaScript
truthiness guard `out.currency && typeof out.currency === 'string'`
skips the (falsy) empty string, otherwise the currency is trimmed and
uppercased. -/
def normalizeCurrency (t : Transaction) : Transaction :=
  match t.currency with
  | some c => if c = "" then t else { t with currency := some (jsToUpper (jsTrim c)) }
  | none => t

/-- The category half of the per-record normalization: a present,
nonempty category whose trimmed value is in the allowed set is kept
AS IS (untrimmed); otherwise it is replaced by the first
case-insensitive match in the set, or by Other. -/
def normalizeCategory (t : Transaction) : Transaction :=
  match t.category with
  | some c =>
    if c = "" then t
    else
      if allowedCategories.contains (jsTrim c) then t
      else
        match allowedCategories.find? (fun a => jsToLower a == jsToLower (jsTrim c)) with
        | some found => { t with category := some found }
        | none => { t with category := some "Other" }
  | none => t

def normalizeTx (t : Transaction) : Transaction := normalizeCategory (normalizeCurrency t)

/-- Provider error shape; `status` models `err.status ?? err.code`. -/
structure GenError where
  status : Option Nat
  message : String
deriving DecidableEq

/-- `isRateLimitError` (src/server/extractTransactions.js 98-104):
`code === 429 || msg.includes('429') || msg.includes('RESOURCE_EXHAUSTED')`. -/
def isRateLimitError (e : GenError) : Bool :=
  e.status == some 429 || containsSubstring e.message "429" ||
    containsSubstring e.message "RESOURCE_EXHAUSTED"

/-- A network oracle: outcome of calling a model, per attempt number
(attempts count from 1 within one retry loop).  The image payload does
not influence the claims and is abstracted away. -/
def Api : Type := String → Nat → Except GenError (List Transaction)

def CANDIDATE_MODELS : List String :=
  ["gemini-2.5-flash", "gemini-2.0-flash", "gemini-2.5-pro"]

def allModelsFailedError : GenError :=
  { status := none, message := "All AI models failed to extract data." }

/-- The model fallback loop of the browser-side `generateForBatch`
(src/services/geminiService.ts 84-149): each candidate model is called
exactly once; a success returns the normalized data, any failure
(rate limit included) stores `lastError` and advances to the next
model; after the loop the last error is thrown.  The first component
is the trace of `(model, attempt)` calls actually made. -/
def generateForBatchClientAux (api : Api) :
    List String → List (String × Nat) → Option GenError →
      List (String × Nat) × Except GenError (List Transaction)
  | [], trace, lastErr => (trace, Except.error (lastErr.getD allModelsFailedError))
  | m :: ms, trace, _lastErr =>
    match api m 1 with
    | Except.ok data => (trace ++ [(m, 1)], Except.ok (data.map normalizeTx))
    | Except.error e => generateForBatchClientAux api ms (trace ++ [(m, 1)]) (some e)

def generateForBatchClient (api : Api) :
    List (String × Nat) × Except GenError (List Transaction) :=
  generateForBatchClientAux api CANDIDATE_MODELS [] none

/-- The `for (let i = 0; i < images.length; i += BATCH_SIZE)` slicing
loop (src/services/geminiService.ts 35-39 with BATCH_SIZE 5, and
src/server/extractTransactions.js 167-173 with BATCH_SIZE 3).  The fuel
equals the list length, enough for any batch size of at least 1. -/
def batchesOfAux (bs : Nat) : Nat → List String → List (List String)
  | 0, _ => []
  | _ + 1, [] => []
  | fuel + 1, a :: l => ((a :: l).take bs) :: batchesOfAux bs fuel ((a :: l).drop bs)

def batchesOf (bs : Nat) (l : List String) : List (List String) :=
  batchesOfAux bs l.length l

/-- `Promise.all(batches.map(generateForBatch)).flat()`
(src/services/geminiService.ts 152-155): all results in batch order, or
the error of the first failing batch (parallel settlement order is
modelled as list order). -/
def collectAll : List (Except GenError (List Transaction)) → Except GenError (List Transaction)
  | [] => Except.ok []
  | Except.error e :: _ => Except.error e
  | Except.ok l :: rest =>
    match collectAll rest with
    | Except.ok r => Except.ok (l ++ r)
    | Except.error e => Except.error e

/-- Browser-side `extractTransactionsFromImages`
(src/services/geminiService.ts 33-160): slice into batches of at most
5, run `generateForBatch` for each (oracle indexed by batch number),
flatten. -/
def extractTransactionsFromImagesC (apis : Nat → Api) (base64Images : List String) :
    Except GenError (List Transaction) :=
  collectAll ((List.range (batchesOf 5 base64Images).length).map
    (fun i => (generateForBatchClient (apis i)).2))

/-- Placeholder for the `throw lastErr` after the server retry loop
when no error was recorded; unreachable for `maxAttempts ≥ 1`. -/
def retryLoopFellThrough : GenError := { status := none, message := "undefined" }

/-- `withRetry` (src/server/extractTransactions.js 110-123),
instrumented with the list of attempt numbers actually called and the
backoff sleeps performed: attempts run from 1 to `maxAttempts`; a
non-rate-limit error, or a rate-limit error on the last attempt, is
rethrown at once; otherwise the loop sleeps
`min(10000, 800 * 2 ** (attempt - 1))` ms and retries. -/
def withRetryAux {α : Type} (f : Nat → Except GenError α) (maxAttempts : Nat) :
    Nat → Nat → List Nat → List Nat → Option GenError →
      List Nat × List Nat × Except GenError α
  | _, 0, calls, sleeps, lastErr =>
    (calls, sleeps, Except.error (lastErr.getD retryLoopFellThrough))
  | attempt, rem + 1, calls, sleeps, _lastErr =>
    match f attempt with
    | Except.ok v => (calls ++ [attempt], sleeps, Except.ok v)
    | Except.error e =>
      if !isRateLimitError e || attempt == maxAttempts then
        (calls ++ [attempt], sleeps, Except.error e)
      else
        withRetryAux f maxAttempts (attempt + 1) rem (calls ++ [attempt])
          (sleeps ++ [min 10000 (800 * 2 ^ (attempt - 1))]) (some e)

def withRetry {α : Type} (f : Nat → Except GenError α) (maxAttempts : Nat) :
    List Nat × List Nat × Except GenError α :=
  withRetryAux f maxAttempts 1 maxAttempts [] [] none

/-- The per-batch model fallback loop of the server extractor
(src/server/extractTransactions.js 188-218): each model call goes
through `withRetry(…, 3)`; a success breaks out with the normalized
transactions, a failure stores the error and advances to the next
model; the stored error is thrown after the loop. -/
def serverModelLoop (api : Api) :
    List String → Option GenError → Except GenError (List Transaction)
  | [], lastErr => Except.error (lastErr.getD retryLoopFellThrough)
  | m :: ms, _ =>
    match (withRetry (fun attempt => api m attempt) 3).2.2 with
    | Except.ok data => Except.ok (data.map normalizeTx)
    | Except.error e => serverModelLoop api ms (some e)

/-- Server-side `extractTransactionsFromBase64Images`
(src/server/extractTransactions.js 125-222): sequential batches of at
most 3, first failing batch aborts. -/
def serverBatchesLoop (apis : Nat → Api) : List Nat → Except GenError (List Transaction)
  | [] => Except.ok []
  | i :: is =>
    match serverModelLoop (apis i) CANDIDATE_MODELS none with
    | Except.ok txs =>
      match serverBatchesLoop apis is with
      | Except.ok rest => Except.ok (txs ++ rest)
      | Except.error e => Except.error e
    | Except.error e => Except.error e

def extractTransactionsFromBase64Images (apis : Nat → Api) (images : List String) :
    Except GenError (List Transaction) :=
  serverBatchesLoop apis (List.range (batchesOf 3 images).length)

-- ### Concrete data used by the witnesses and counterexamples

/-- The transaction-row sample of spec section 8. -/
def txnSampleLine : String := "01/02/2024 UPI/DR/XXXX 1200.00"

def dummyRect : RedactionRect :=
  { id := "", x := 0, y := 0, width := 0, height := 0, source := RectSource.auto }

/-- Two fragments of one reconstructed line: the left one sits 2 units
lower (`yTop` 12 against 10), within the 3-unit line tolerance. -/
def fragA : PositionedItem := { text := "AAAA", x := 0, yTop := 12, width := 10, height := 5 }

def fragB : PositionedItem := { text := "BBB", x := 20, yTop := 10, width := 4, height := 5 }

def cex2Ranges : List RangeEntry := (buildRanges [fragA, fragB]).2

/-- Modelled from the words of claim C2, for comparison with the code:
the claimed y-coordinate of the synthesized rectangle,
`min over covered fragments of (yTop - maxHeight), minus the 2-unit pad`. -/
def claimedAutoY (covered : List RangeEntry) : Int :=
  let maxH := intMaxList (covered.map (fun c => c.item.height))
  intMinList (covered.map (fun c => c.item.yTop - maxH)) - 2

/-- A one-fragment line whose single character span is 0..10. -/
def cex3Item : PositionedItem := { text := "0123456789", x := 0, yTop := 50, width := 80, height := 10 }

def cex3Ranges : List RangeEntry := (buildRanges [cex3Item]).2

/-- A top-region line holding a bare PAN-shaped token and no label. -/
def panFrag : PositionedItem := { text := "ABCDE1234F", x := 0, yTop := 20, width := 50, height := 10 }

def panRanges : List RangeEntry := (buildRanges [panFrag]).2

def panLineText : String := (buildRanges [panFrag]).1

/-- A small editor state for the gesture witnesses. -/
def samplePage : RedactionPage :=
  { baseImage := "data:image/jpeg;base64,AAA",
    rects := [{ id := "r1", x := 0, y := 0, width := 10, height := 10, source := RectSource.auto }] }

def sampleEditorState : EditorState := initE [samplePage]

/-- A rate-limit provider error (status 429). -/
def rlErr : GenError := { status := some 429, message := "RESOURCE_EXHAUSTED" }

/-- A non-rate-limit provider error. -/
def otherErr : GenError := { status := some 400, message := "invalid request" }

def sampleTx : Transaction :=
  { date := "2024-01-02", description := "coffee", debit := some 4, credit := none,
    balance := none, currency := none, category := none }

/-- Oracle for the C9 counterexample: the first candidate model is
rate-limited on attempt 1 and would succeed on any later attempt; the
fallback models always fail with a non-rate-limit error. -/
def cexApiC9 : Api := fun m attempt =>
  if m == "gemini-2.5-flash" then
    (if attempt == 1 then Except.error rlErr else Except.ok [sampleTx])
  else Except.error otherErr

/-- A raw record whose category is in the allowed set once trimmed but
carries surrounding whitespace. -/
def rawTxC10 : Transaction :=
  { date := "2024-01-02", description := "Monthly rent", debit := some 1200, credit := none,
    balance := none, currency := some " inr ", category := some " Rent " }

/-- Oracle for the C10 counterexample: the first model succeeds with
the single raw record above. -/
def apiC10 : Api := fun m _ =>
  if m == "gemini-2.5-flash" then Except.ok [rawTxC10] else Except.error otherErr

-- ### Helper lemmas

theorem foldl_min_le_init (l : List Int) (x : Int) : l.foldl min x ≤ x := by
  induction l generalizing x with
  | nil => simp
  | cons a l ih => exact le_trans (ih (min x a)) (min_le_left x a)

theorem foldl_min_le_mem (l : List Int) (x a : Int) (ha : a ∈ l) : l.foldl min x ≤ a := by
  induction l generalizing x with
  | nil => cases ha
  | cons b l ih =>
    rcases List.mem_cons.mp ha with h | h
    · subst h
      exact le_trans (foldl_min_le_init l (min x a)) (min_le_right x a)
    · exact ih (min x b) h

theorem foldl_min_mem (l : List Int) (x : Int) : l.foldl min x = x ∨ l.foldl min x ∈ l := by
  induction l generalizing x with
  | nil => left; rfl
  | cons a l ih =>
    rcases ih (min x a) with h | h
    · rcases min_choice x a with h1 | h1
      · left; rw [List.foldl_cons, h, h1]
      · right; rw [List.foldl_cons, h, h1]; exact List.mem_cons_self a l
    · right; exact List.mem_cons_of_mem a h

theorem foldl_max_ge_init (l : List Int) (x : Int) : x ≤ l.foldl max x := by
  induction l generalizing x with
  | nil => simp
  | cons a l ih => exact le_trans (le_max_left x a) (ih (max x a))

theorem foldl_max_ge_mem (l : List Int) (x a : Int) (ha : a ∈ l) : a ≤ l.foldl max x := by
  induction l generalizing x with
  | nil => cases ha
  | cons b l ih =>
    rcases List.mem_cons.mp ha with h | h
    · subst h
      exact le_trans (le_max_right x a) (foldl_max_ge_init l (max x a))
    · exact ih (max x b) h

theorem foldl_max_mem (l : List Int) (x : Int) : l.foldl max x = x ∨ l.foldl max x ∈ l := by
  induction l generalizing x with
  | nil => left; rfl
  | cons a l ih =>
    rcases ih (max x a) with h | h
    · rcases max_choice x a with h1 | h1
      · left; rw [List.foldl_cons, h, h1]
      · right; rw [List.foldl_cons, h, h1]; exact List.mem_cons_self a l
    · right; exact List.mem_cons_of_mem a h

theorem intMinList_le (a : Int) (l : List Int) : ∀ b ∈ a :: l, intMinList (a :: l) ≤ b := by
  intro b hb
  rcases List.mem_cons.mp hb with h | h
  · subst h; exact foldl_min_le_init l b
  · exact foldl_min_le_mem l a b h

theorem intMinList_attained (a : Int) (l : List Int) : intMinList (a :: l) ∈ a :: l := by
  rcases foldl_min_mem l a with h | h
  · rw [intMinList, h]; exact List.mem_cons_self a l
  · exact List.mem_cons_of_mem a h

theorem intMaxList_ge (a : Int) (l : List Int) : ∀ b ∈ a :: l, b ≤ intMaxList (a :: l) := by
  intro b hb
  rcases List.mem_cons.mp hb with h | h
  · subst h; exact foldl_max_ge_init l b
  · exact foldl_max_ge_mem l a b h

theorem intMaxList_attained (a : Int) (l : List Int) : intMaxList (a :: l) ∈ a :: l := by
  rcases foldl_max_mem l a with h | h
  · rw [intMaxList, h]; exact List.mem_cons_self a l
  · exact List.mem_cons_of_mem a h

-- ### Claim C2

/-- C2 (amended): for every character range intersecting at least one
fragment, coverRange appends exactly one rectangle, tagged auto, whose
id encodes the page, line and range indices, whose x extent is the
union bounding box of the intersecting fragments inflated by the 2-unit
pad, whose height is the maximal fragment height plus the pad on both
sides, and whose y is the yTop of the FIRST (leftmost) covered fragment
minus the maximal height minus the pad, and increments the redaction
counter by one.  (The claim said y is the minimum of yTop - maxHeight
over the covered fragments; the code uses covered[0].yTop.) -/
theorem C2_cover_range_union_box :
    ∀ (pageNum lineIdx : Nat) (ranges : List RangeEntry) (rects : List RedactionRect)
      (cnt s e : Nat) (c0 : RangeEntry) (cs : List RangeEntry),
      ranges.filter (rangeHits s e) = c0 :: cs →
      ∃ r : RedactionRect,
        coverRange pageNum lineIdx ranges rects cnt s e = (rects ++ [r], cnt + 1) ∧
        r.source = RectSource.auto ∧
        r.id = toString pageNum ++ "-" ++ toString lineIdx ++ "-" ++ toString s ++ "-" ++
          toString e ++ "-" ++ toString rects.length ∧
        (∀ c ∈ c0 :: cs, r.x ≤ c.item.x - 2) ∧
        (∃ c ∈ c0 :: cs, r.x = c.item.x - 2) ∧
        (∀ c ∈ c0 :: cs, c.item.x + c.item.width + 2 ≤ r.x + r.width) ∧
        (∃ c ∈ c0 :: cs, c.item.x + c.item.width + 2 = r.x + r.width) ∧
        (∀ c ∈ c0 :: cs, c.item.height + 4 ≤ r.height) ∧
        (∃ c ∈ c0 :: cs, c.item.height + 4 = r.height) ∧
        r.y = c0.item.yTop - (r.height - 4) - 2 := by
  intro pageNum lineIdx ranges rects cnt s e c0 cs hcov
  have heq : coverRange pageNum lineIdx ranges rects cnt s e =
      (rects ++ [{ id := toString pageNum ++ "-" ++ toString lineIdx ++ "-" ++ toString s ++ "-" ++
                     toString e ++ "-" ++ toString rects.length,
                   x := intMinList ((c0 :: cs).map (fun c => c.item.x)) - 2,
                   y := c0.item.yTop - intMaxList ((c0 :: cs).map (fun c => c.item.height)) - 2,
                   width := (intMaxList ((c0 :: cs).map (fun c => c.item.x + c.item.width)) -
                     intMinList ((c0 :: cs).map (fun c => c.item.x))) + 2 * 2,
                   height := intMaxList ((c0 :: cs).map (fun c => c.item.height)) + 2 * 2,
                   source := RectSource.auto }], cnt + 1) := by
    unfold coverRange
    rw [hcov]
  refine ⟨_, heq, rfl, rfl, ?_, ?_, ?_, ?_, ?_, ?_, ?_⟩
  · intro c hc
    have h1 := intMinList_le (c0.item.x) (cs.map (fun c => c.item.x)) c.item.x
      (by simpa using List.mem_map_of_mem (fun c => c.item.x) hc)
    dsimp only
    simp only [List.map_cons] at h1 ⊢
    omega
  · have hmem := intMinList_attained (c0.item.x) (cs.map (fun c => c.item.x))
    have hmem2 : intMinList ((c0 :: cs).map (fun c => c.item.x)) ∈
        (c0 :: cs).map (fun c => c.item.x) := by simpa using hmem
    rcases List.mem_map.mp hmem2 with ⟨c, hc, hcx⟩
    refine ⟨c, hc, ?_⟩
    dsimp only
    omega
  · intro c hc
    have h1 := intMaxList_ge (c0.item.x + c0.item.width)
      (cs.map (fun c => c.item.x + c.item.width)) (c.item.x + c.item.width)
      (by simpa using List.mem_map_of_mem (fun c => c.item.x + c.item.width) hc)
    dsimp only
    simp only [List.map_cons] at h1 ⊢
    omega
  · have hmem := intMaxList_attained (c0.item.x + c0.item.width)
      (cs.map (fun c => c.item.x + c.item.width))
    have hmem2 : intMaxList ((c0 :: cs).map (fun c => c.item.x + c.item.width)) ∈
        (c0 :: cs).map (fun c => c.item.x + c.item.width) := by simpa using hmem
    rcases List.mem_map.mp hmem2 with ⟨c, hc, hcx⟩
    refine ⟨c, hc, ?_⟩
    dsimp only
    omega
  · intro c hc
    have h1 := intMaxList_ge (c0.item.height) (cs.map (fun c => c.item.height)) c.item.height
      (by simpa using List.mem_map_of_mem (fun c => c.item.height) hc)
    dsimp only
    simp only [List.map_cons] at h1 ⊢
    omega
  · have hmem := intMaxList_attained (c0.item.height) (cs.map (fun c => c.item.height))
    have hmem2 : intMaxList ((c0 :: cs).map (fun c => c.item.height)) ∈
        (c0 :: cs).map (fun c => c.item.height) := by simpa using hmem
    rcases List.mem_map.mp hmem2 with ⟨c, hc, hcx⟩
    refine ⟨c, hc, ?_⟩
    dsimp only
    omega
  · dsimp only
    omega

/-- C2 witness: the two-fragment line with range 0..8 covers both
fragments and yields exactly one auto rectangle. -/
theorem C2_cover_range_union_box_witness :
    cex2Ranges.filter (rangeHits 0 8) = ⟨0, 4, fragA⟩ :: [⟨5, 8, fragB⟩] ∧
      (coverRange 1 0 cex2Ranges [] 0 0 8).2 = 1 ∧
      (coverRange 1 0 cex2Ranges [] 0 0 8).1.length = 1 := by
  have h : cex2Ranges.filter (rangeHits 0 8) = ⟨0, 4, fragA⟩ :: [⟨5, 8, fragB⟩] := by decide
  obtain ⟨r, heq, _⟩ := C2_cover_range_union_box 1 0 cex2Ranges [] 0 0 8 ⟨0, 4, fragA⟩ [⟨5, 8, fragB⟩] h
  exact ⟨h, by rw [heq], by rw [heq]; rfl⟩

/-- C2 counterexample: on a line whose leftmost covered fragment has
yTop 12 while another covered fragment has yTop 10 (both height 5), the
code produces y = 12 - 5 - 2 = 5, while the y claimed by C2
(min over covered of (yTop - maxHeight), minus the pad) is
10 - 5 - 2 = 3. -/
theorem C2_cover_range_y_counterexample :
    ((coverRange 1 0 cex2Ranges [] 0 0 8).1.getD 0 dummyRect).y = 5 ∧
      claimedAutoY (cex2Ranges.filter (rangeHits 0 8)) = 3 := by decide

-- ### Claim C3

/-- C3 (amended): coverRange is a no-op (no rectangle appended, counter
not incremented) exactly when no fragment entry passes the overlap
filter `r.end > s && r.start < e`; in particular it is a no-op on a
line with no fragments.  The s ≥ e part of the claim is refuted by the
counterexample: the filter tests span overlap, not range
non-emptiness, so an inverted range lying strictly inside a fragment
span still produces a rectangle. -/
theorem C3_cover_range_noop :
    ∀ (pageNum lineIdx : Nat) (ranges : List RangeEntry) (rects : List RedactionRect)
      (cnt s e : Nat),
      (ranges.filter (rangeHits s e) = [] →
        coverRange pageNum lineIdx ranges rects cnt s e = (rects, cnt)) ∧
      (ranges = [] →
        coverRange pageNum lineIdx ranges rects cnt s e = (rects, cnt)) := by
  intro pageNum lineIdx ranges rects cnt s e
  constructor
  · intro hcov
    unfold coverRange
    rw [hcov]
  · intro hr
    subst hr
    rfl

/-- C3 witness: a range over an empty fragment list is a no-op. -/
theorem C3_cover_range_noop_witness :
    coverRange 1 0 [] [] 0 0 5 = ([], 0) :=
  (C3_cover_range_noop 1 0 [] [] 0 0 5).1 (by decide)

/-- C3 counterexample: on the one-fragment line with character span
0..10, the inverted call coverRange(5, 3) (s = 5 ≥ e = 3) still passes
the overlap filter (10 > 5 and 0 < 3), so a rectangle IS appended and
the counter IS incremented, refuting the claim. -/
theorem C3_cover_range_counterexample :
    5 ≥ 3 ∧ (coverRange 1 0 cex3Ranges [] 0 5 3).1.length = 1 ∧
      (coverRange 1 0 cex3Ranges [] 0 5 3).2 = 1 := by decide

-- ### Claim C1

/-- C1: if a reconstructed line looks like a transaction row (a date
token together with a table-header token, a transaction keyword or a
money pattern), the card-number rule block (full, masked and partial
forms) emits no character range and leaves the rectangle list and the
redaction counter unchanged; conversely, whenever the block emits
anything, the line is in the top region or carries a card/account label
token (and does not look like a transaction row). -/
theorem C1_card_rule_txn_gating :
    ∀ (topRegion : Bool) (pageNum lineIdx : Nat) (ranges : List RangeEntry)
      (lineText : String) (st : List RedactionRect × Nat),
      (looksLikeTxn lineText = true →
        cardRuleRanges topRegion lineText = [] ∧
        cardRule topRegion pageNum lineIdx ranges lineText st = st) ∧
      ((cardRuleRanges topRegion lineText ≠ [] ∨
          cardRule topRegion pageNum lineIdx ranges lineText st ≠ st) →
        (topRegion = true ∨ hasLabel lineText = true) ∧
          looksLikeTxn lineText = false) := by
  intro topRegion pageNum lineIdx ranges lineText st
  constructor
  · intro h
    constructor
    · unfold cardRuleRanges
      rw [h]
      simp
    · unfold cardRule
      rw [h]
      simp
  · intro h
    cases hg : (topRegion || hasLabel lineText) && !looksLikeTxn lineText with
    | false =>
      exfalso
      rcases h with h | h
      · apply h
        unfold cardRuleRanges
        rw [hg]
        simp
      · apply h
        unfold cardRule
        rw [hg]
        simp
    | true =>
      have hg2 := Bool.and_eq_true_iff.mp hg
      refine ⟨Bool.or_eq_true_iff.mp hg2.1, ?_⟩
      have := hg2.2
      simp only [Bool.not_eq_true'] at this
      exact this

/-- C1 witness: the transaction-row sample of the spec,
`"01/02/2024 UPI/DR/XXXX 1200.00"`, looks like a transaction row, so
the card rule leaves the state unchanged even though the line contains
a 13+-digit-class run. -/
theorem C1_card_rule_txn_gating_witness :
    looksLikeTxn txnSampleLine = true ∧
      cardRuleRanges true txnSampleLine = [] ∧
      cardRule true 1 0 cex3Ranges txnSampleLine ([], 0) = ([], 0) := by
  have h : looksLikeTxn txnSampleLine = true := by decide
  have h2 := (C1_card_rule_txn_gating true 1 0 cex3Ranges txnSampleLine ([], 0)).1 h
  exact ⟨h, h2.1, h2.2⟩

-- ### Claim C4

/-- C4 (amended): the SSN/SIN/NIN block emits ranges only on lines that
match the explicit label regex and do not look like transaction rows;
all four national-ID blocks are suppressed on transaction rows; and for
IFSC, PAN and Aadhaar, OUTSIDE the top region the corresponding
keyword is required.  (The claim said a label keyword is required
regardless of page region; the counterexample shows the top region
alone suffices for IFSC, PAN and Aadhaar.) -/
theorem C4_national_id_gating :
    ∀ (topRegion : Bool) (pageNum lineIdx : Nat) (ranges : List RangeEntry)
      (lineText : String) (st : List RedactionRect × Nat),
      (ssnSinNinRule pageNum lineIdx ranges lineText st ≠ st →
        rtest ssnLabelPat lineText = true ∧ looksLikeTxn lineText = false) ∧
      (looksLikeTxn lineText = true →
        ifscRule topRegion pageNum lineIdx ranges lineText st = st ∧
        panRule topRegion pageNum lineIdx ranges lineText st = st ∧
        aadhaarRule topRegion pageNum lineIdx ranges lineText st = st ∧
        ssnSinNinRule pageNum lineIdx ranges lineText st = st) ∧
      (topRegion = false →
        (ifscRule topRegion pageNum lineIdx ranges lineText st ≠ st →
          rtest ifscLabelPat lineText = true) ∧
        (panRule topRegion pageNum lineIdx ranges lineText st ≠ st →
          rtest panLabelPat lineText = true) ∧
        (aadhaarRule topRegion pageNum lineIdx ranges lineText st ≠ st →
          rtest aadhaarLabelPat lineText = true)) := by
  intro topRegion pageNum lineIdx ranges lineText st
  refine ⟨?_, ?_, ?_⟩
  · intro h
    cases hg : rtest ssnLabelPat lineText && !looksLikeTxn lineText with
    | false =>
      exfalso
      apply h
      unfold ssnSinNinRule
      rw [hg]
      simp
    | true =>
      have hg2 := Bool.and_eq_true_iff.mp hg
      refine ⟨hg2.1, ?_⟩
      have := hg2.2
      simp only [Bool.not_eq_true'] at this
      exact this
  · intro h
    refine ⟨?_, ?_, ?_, ?_⟩
    · unfold ifscRule; rw [h]; simp
    · unfold panRule; rw [h]; simp
    · unfold aadhaarRule; rw [h]; simp
    · unfold ssnSinNinRule; rw [h]; simp
  · intro htop
    subst htop
    refine ⟨?_, ?_, ?_⟩
    · intro h
      cases hl : rtest ifscLabelPat lineText with
      | false =>
        exfalso
        apply h
        unfold ifscRule
        rw [hl]
        simp
      | true => rfl
    · intro h
      cases hl : rtest panLabelPat lineText with
      | false =>
        exfalso
        apply h
        unfold panRule
        rw [hl]
        simp
      | true => rfl
    · intro h
      cases hl : rtest aadhaarLabelPat lineText with
      | false =>
        exfalso
        apply h
        unfold aadhaarRule
        rw [hl]
        simp
      | true => rfl

/-- C4 witness: the transaction-row sample suppresses all four
national-ID blocks. -/
theorem C4_national_id_gating_witness :
    looksLikeTxn txnSampleLine = true ∧
      panRule true 1 0 cex3Ranges txnSampleLine ([], 0) = ([], 0) ∧
      ssnSinNinRule 1 0 cex3Ranges txnSampleLine ([], 0) = ([], 0) := by
  have h : looksLikeTxn txnSampleLine = true := by decide
  have h2 := (C4_national_id_gating true 1 0 cex3Ranges txnSampleLine ([], 0)).2.1 h
  exact ⟨h, h2.2.1, h2.2.2.2⟩

/-- C4 counterexample: a top-region line consisting of the bare
PAN-shaped token "ABCDE1234F" carries no PAN label keyword and is not a
transaction row, yet the PAN block emits a range and produces a
rectangle, refuting the claim that an explicit nearby label keyword is
required. -/
theorem C4_national_id_counterexample :
    rtest panLabelPat panLineText = false ∧
      hasLabel panLineText = false ∧
      looksLikeTxn panLineText = false ∧
      topRegionOf [panFrag] 1000 = true ∧
      (panRule (topRegionOf [panFrag] 1000) 1 0 panRanges panLineText ([], 0)).1.length = 1 ∧
      (panRule (topRegionOf [panFrag] 1000) 1 0 panRanges panLineText ([], 0)).2 = 1 := by
  decide

-- ### Claim C5

/-- C5: a draw release (mouse or touch, both share this commit logic)
with both absolute extents at least 4 appends one manual rectangle of
exactly those extents and commits one history snapshot; a release with
either extent below 4 leaves the whole editor state (pages AND history)
unchanged. -/
theorem C5_draw_commit_threshold :
    ∀ (pageIdx : Nat) (sx sy x2 y2 : Int) (newId : String) (st : EditorState),
      (abs (x2 - sx) < 4 ∨ abs (y2 - sy) < 4 →
        drawRelease pageIdx sx sy x2 y2 newId st = st) ∧
      (4 ≤ abs (x2 - sx) → 4 ≤ abs (y2 - sy) →
        ∃ r : RedactionRect,
          r.width = abs (x2 - sx) ∧ r.height = abs (y2 - sy) ∧
          4 ≤ r.width ∧ 4 ≤ r.height ∧ r.source = RectSource.manual ∧
          (drawRelease pageIdx sx sy x2 y2 newId st).pages =
            updateAt st.pages pageIdx (fun p => { p with rects := p.rects ++ [r] }) ∧
          (drawRelease pageIdx sx sy x2 y2 newId st).history =
            st.history.take (st.historyIndex + 1) ++
              [(drawRelease pageIdx sx sy x2 y2 newId st).pages]) := by
  intro pageIdx sx sy x2 y2 newId st
  constructor
  · intro h
    unfold drawRelease
    rw [if_pos h]
  · intro hw hh
    have hcond : ¬(abs (x2 - sx) < 4 ∨ abs (y2 - sy) < 4) := by omega
    refine ⟨{ id := newId, x := min sx x2, y := min sy y2, width := abs (x2 - sx),
              height := abs (y2 - sy), source := RectSource.manual },
            rfl, rfl, hw, hh, rfl, ?_, ?_⟩
    · unfold drawRelease
      rw [if_neg hcond]
      rfl
    · unfold drawRelease
      rw [if_neg hcond]
      rfl

/-- C5 witness: a 3-by-10 drag is discarded with no history commit. -/
theorem C5_draw_commit_threshold_witness :
    abs ((3 : Int) - 0) < 4 ∧
      drawRelease 0 0 0 3 10 "m" sampleEditorState = sampleEditorState :=
  ⟨by decide,
   (C5_draw_commit_threshold 0 0 0 3 10 "m" sampleEditorState).1 (Or.inl (by decide))⟩

-- ### History helper lemmas

theorem getD_append_last {α : Type} (l : List α) (x d : α) :
    (l ++ [x]).getD l.length d = x := by
  induction l with
  | nil => rfl
  | cons a l ih => simp only [List.cons_append, List.length_cons, List.getD_cons_succ]; exact ih

theorem commitE_inv (st : EditorState) (updated : List RedactionPage) :
    cursorInv (commitE updated st) ∧ liveInv (commitE updated st) := by
  unfold commitE pushHistoryE cursorInv liveInv
  constructor
  · simp
  · simp only
    have hlen : (st.history.take (st.historyIndex + 1) ++ [updated]).length - 1 =
        (st.history.take (st.historyIndex + 1)).length := by
      simp
    rw [hlen]
    exact getD_append_last _ _ _

theorem undoE_inv (st : EditorState) (hc : cursorInv st) (hl : liveInv st) :
    cursorInv (undoE st) ∧ liveInv (undoE st) := by
  unfold undoE
  split
  · unfold cursorInv liveInv at *
    constructor
    · simp only
      omega
    · rfl
  · exact ⟨hc, hl⟩

theorem redoE_inv (st : EditorState) (hc : cursorInv st) (hl : liveInv st) :
    cursorInv (redoE st) ∧ liveInv (redoE st) := by
  unfold redoE
  split
  · unfold cursorInv liveInv at *
    constructor
    · simp only
      omega
    · rfl
  · exact ⟨hc, hl⟩

theorem reachableE_inv : ∀ st : EditorState, ReachableE st → cursorInv st ∧ liveInv st := by
  intro st h
  induction h with
  | init pages =>
    constructor
    · show 0 < 1
      omega
    · rfl
  | commit st updated _ _ => exact commitE_inv st updated
  | undoStep st _ ih => exact undoE_inv st ih.1 ih.2
  | redoStep st _ ih => exact redoE_inv st ih.1 ih.2

theorem undoN_spec : ∀ (n : Nat) (st : EditorState), cursorInv st → liveInv st →
    n ≤ st.historyIndex →
    undoN n st = { pages := st.history.getD (st.historyIndex - n) [],
                   history := st.history, historyIndex := st.historyIndex - n } := by
  intro n
  induction n with
  | zero =>
    intro st hc hl _
    unfold liveInv at hl
    cases st with
    | mk pages history historyIndex =>
      simp only [undoN, Nat.sub_zero]
      simp only at hl
      rw [hl]
  | succ n ih =>
    intro st hc hl hn
    have hpos : 0 < st.historyIndex := by omega
    have hstep : undoE st = { pages := st.history.getD (st.historyIndex - 1) [],
                              history := st.history, historyIndex := st.historyIndex - 1 } := by
      unfold undoE
      rw [if_pos hpos]
    show undoN n (undoE st) = _
    rw [hstep]
    have hc2 : cursorInv { pages := st.history.getD (st.historyIndex - 1) [],
                           history := st.history, historyIndex := st.historyIndex - 1 } := by
      unfold cursorInv at *
      simp only
      omega
    have hl2 : liveInv { pages := st.history.getD (st.historyIndex - 1) [],
                         history := st.history, historyIndex := st.historyIndex - 1 } := rfl
    have hn2 : n ≤ st.historyIndex - 1 := by omega
    rw [ih _ hc2 hl2 hn2]
    have harith : st.historyIndex - 1 - n = st.historyIndex - (n + 1) := by omega
    simp only [harith]

theorem redoN_spec : ∀ (n : Nat) (h : List (List RedactionPage)) (i : Nat),
    i + n < h.length →
    redoN n { pages := h.getD i [], history := h, historyIndex := i } =
      { pages := h.getD (i + n) [], history := h, historyIndex := i + n } := by
  intro n
  induction n with
  | zero => intro h i _; rfl
  | succ n ih =>
    intro h i hlen
    have hstep : redoE { pages := h.getD i [], history := h, historyIndex := i } =
        { pages := h.getD (i + 1) [], history := h, historyIndex := i + 1 } := by
      unfold redoE
      rw [if_pos (by simp only; omega)]
    show redoN n (redoE _) = _
    rw [hstep]
    rw [ih h (i + 1) (by omega)]
    have harith : i + 1 + n = i + (n + 1) := by omega
    simp only [harith]

-- ### Claim C6

/-- C6: from any state reached after a sequence of committed editor
operations, undoing N times and then redoing N times, for any N within
the history bounds (N at most the cursor), restores the exact editor
state, and in particular the exact live Scene (all pages and rectangle
lists), with structural equality. -/
theorem C6_undo_redo_roundtrip :
    ∀ (st : EditorState) (n : Nat), ReachableE st → n ≤ st.historyIndex →
      redoN n (undoN n st) = st ∧ (redoN n (undoN n st)).pages = st.pages := by
  intro st n hr hn
  obtain ⟨hc, hl⟩ := reachableE_inv st hr
  have hfull : redoN n (undoN n st) = st := by
    rw [undoN_spec n st hc hl hn]
    have hlen : st.historyIndex - n + n < st.history.length := by
      unfold cursorInv at hc
      omega
    rw [redoN_spec n st.history (st.historyIndex - n) hlen]
    have harith : st.historyIndex - n + n = st.historyIndex := by omega
    rw [harith]
    unfold liveInv at hl
    cases st with
    | mk pages history historyIndex =>
      simp only at hl
      rw [hl]
  exact ⟨hfull, by rw [hfull]⟩

/-- C6 witness: one commit on top of the initial state, N = 1. -/
theorem C6_undo_redo_roundtrip_witness :
    1 ≤ (commitE [] (initE [samplePage])).historyIndex ∧
      (redoN 1 (undoN 1 (commitE [] (initE [samplePage])))).pages =
        (commitE [] (initE [samplePage])).pages := by
  have hr : ReachableE (commitE [] (initE [samplePage])) :=
    ReachableE.commit _ _ (ReachableE.init _)
  have h1 : 1 ≤ (commitE [] (initE [samplePage])).historyIndex := by decide
  exact ⟨h1, (C6_undo_redo_roundtrip _ 1 hr h1).2⟩

-- ### Claim C7

/-- C7: the history invariant cursor < snapshots.length holds at
initialization and is preserved by commit, undo and redo; a commit
truncates the snapshots after the cursor, appends exactly one copy of
the post-action document, and moves the cursor to the new last index;
undo and redo never change the snapshots list. -/
theorem C7_history_invariant :
    (∀ pages, cursorInv (initE pages)) ∧
    (∀ (st : EditorState) (updated : List RedactionPage),
      (commitE updated st).pages = updated ∧
      (commitE updated st).history = st.history.take (st.historyIndex + 1) ++ [updated] ∧
      (commitE updated st).historyIndex + 1 = (commitE updated st).history.length ∧
      cursorInv (commitE updated st)) ∧
    (∀ st : EditorState, (undoE st).history = st.history ∧ (redoE st).history = st.history) ∧
    (∀ st : EditorState, cursorInv st → cursorInv (undoE st) ∧ cursorInv (redoE st)) := by
  refine ⟨?_, ?_, ?_, ?_⟩
  · intro pages
    show 0 < 1
    omega
  · intro st updated
    refine ⟨rfl, rfl, ?_, (commitE_inv st updated).1⟩
    unfold commitE pushHistoryE
    simp
  · intro st
    constructor
    · unfold undoE
      split <;> rfl
    · unfold redoE
      split <;> rfl
  · intro st hc
    constructor
    · unfold undoE
      split
      · unfold cursorInv at *
        simp only
        omega
      · exact hc
    · unfold redoE
      split
      · unfold cursorInv at *
        simp only
        omega
      · exact hc

/-- C7 witness: the invariant at the initial state and after an undo
and a redo on it. -/
theorem C7_history_invariant_witness :
    cursorInv (initE []) ∧ cursorInv (undoE (initE [])) ∧ cursorInv (redoE (initE [])) := by
  have hinv : cursorInv (initE []) := by
    show 0 < 1
    omega
  have h := C7_history_invariant.2.2.2 (initE []) hinv
  exact ⟨hinv, h.1, h.2⟩

-- ### Claim C8

theorem updateAt_map_baseImage (pages : List RedactionPage) (i : Nat)
    (g : RedactionPage → RedactionPage) (hg : ∀ p, (g p).baseImage = p.baseImage) :
    (updateAt pages i g).map (fun p => p.baseImage) = pages.map (fun p => p.baseImage) := by
  induction pages generalizing i with
  | nil => rfl
  | cons a l ih =>
    cases i with
    | zero => simp [updateAt, hg]
    | succ n => simp [updateAt, ih]

theorem commitE_pages (u : List RedactionPage) (st : EditorState) :
    (commitE u st).pages = u := rfl

/-- C8: no editor operation (draw commit, erase by point or by id,
clear page, clear all, in-progress move or resize) and no export step
changes any baseImage; the compositor maps each page to a fresh output
bitmap made of the unchanged base image with the rectangles filled over
it, without touching the Scene. -/
theorem C8_baseImage_preserved :
    ∀ (st : EditorState) (pageIdx : Nat) (sx sy x2 y2 px py dx dy : Int)
      (newId rid : String) (orig : RedactionRect) (corner : Corner),
      (drawRelease pageIdx sx sy x2 y2 newId st).pages.map (fun p => p.baseImage) =
        st.pages.map (fun p => p.baseImage) ∧
      (eraseAtPoint pageIdx px py st).pages.map (fun p => p.baseImage) =
        st.pages.map (fun p => p.baseImage) ∧
      (eraseById pageIdx rid st).pages.map (fun p => p.baseImage) =
        st.pages.map (fun p => p.baseImage) ∧
      (clearPage pageIdx st).pages.map (fun p => p.baseImage) =
        st.pages.map (fun p => p.baseImage) ∧
      (clearAll st).pages.map (fun p => p.baseImage) =
        st.pages.map (fun p => p.baseImage) ∧
      (selectDragUpdate pageIdx rid (moveRect orig dx dy) st).pages.map (fun p => p.baseImage) =
        st.pages.map (fun p => p.baseImage) ∧
      (selectDragUpdate pageIdx rid (resizeRect orig corner dx dy) st).pages.map
          (fun p => p.baseImage) =
        st.pages.map (fun p => p.baseImage) ∧
      rasterizeWithRects st.pages =
        st.pages.map (fun p => { base := p.baseImage, fills := p.rects }) := by
  intro st pageIdx sx sy x2 y2 px py dx dy newId rid orig corner
  refine ⟨?_, ?_, ?_, ?_, ?_, ?_, ?_, rfl⟩
  · unfold drawRelease
    split
    · rfl
    · rw [commitE_pages]
      exact updateAt_map_baseImage _ _ _ (fun p => rfl)
  · unfold eraseAtPoint
    cases hl : lastIdxContaining (st.pages.getD pageIdx emptyPage).rects px py with
    | none => rfl
    | some i =>
      rw [commitE_pages]
      exact updateAt_map_baseImage _ _ _ (fun p => rfl)
  · unfold eraseById
    rw [commitE_pages]
    exact updateAt_map_baseImage _ _ _ (fun p => rfl)
  · unfold clearPage
    rw [commitE_pages]
    exact updateAt_map_baseImage _ _ _ (fun p => rfl)
  · unfold clearAll
    rw [commitE_pages]
    simp
  · unfold selectDragUpdate
    cases hl : (st.pages.getD pageIdx emptyPage).rects.findIdx? (fun r => r.id == rid) with
    | none => rfl
    | some i => exact updateAt_map_baseImage _ _ _ (fun p => rfl)
  · unfold selectDragUpdate
    cases hl : (st.pages.getD pageIdx emptyPage).rects.findIdx? (fun r => r.id == rid) with
    | none => rfl
    | some i => exact updateAt_map_baseImage _ _ _ (fun p => rfl)

-- ### Claim C9 helper lemmas

theorem batchesOfAux_length_le (bs : Nat) :
    ∀ (fuel : Nat) (l : List String), ∀ b ∈ batchesOfAux bs fuel l, b.length ≤ bs := by
  intro fuel
  induction fuel with
  | zero =>
    intro l b hb
    simp [batchesOfAux] at hb
  | succ fuel ih =>
    intro l b hb
    cases l with
    | nil => simp [batchesOfAux] at hb
    | cons a l =>
      rw [batchesOfAux] at hb
      rcases List.mem_cons.mp hb with h | h
      · subst h
        rw [List.length_take]
        omega
      · exact ih _ _ h

theorem batchesOf_length_le (bs : Nat) (l : List String) :
    ∀ b ∈ batchesOf bs l, b.length ≤ bs :=
  batchesOfAux_length_le bs l.length l

theorem clientAux_trace_models (api : Api) :
    ∀ (ms : List String) (tr : List (String × Nat)) (le : Option GenError),
      ∃ k, (generateForBatchClientAux api ms tr le).1 = tr ++ (ms.take k).map (fun m => (m, 1)) := by
  intro ms
  induction ms with
  | nil =>
    intro tr le
    exact ⟨0, by simp [generateForBatchClientAux]⟩
  | cons m ms ih =>
    intro tr le
    unfold generateForBatchClientAux
    cases hm : api m 1 with
    | ok data =>
      dsimp only
      exact ⟨1, by simp⟩
    | error e =>
      dsimp only
      obtain ⟨k, hk⟩ := ih (tr ++ [(m, 1)]) (some e)
      refine ⟨k + 1, ?_⟩
      rw [hk]
      simp

theorem clientAux_error_trace (api : Api) :
    ∀ (ms : List String) (tr : List (String × Nat)) (le : Option GenError) (e : GenError),
      (generateForBatchClientAux api ms tr le).2 = Except.error e →
      (generateForBatchClientAux api ms tr le).1 = tr ++ ms.map (fun m => (m, 1)) := by
  intro ms
  induction ms with
  | nil =>
    intro tr le e _
    simp [generateForBatchClientAux]
  | cons m ms ih =>
    intro tr le e h
    unfold generateForBatchClientAux at h ⊢
    cases hm : api m 1 with
    | ok data =>
      rw [hm] at h
      simp at h
    | error e2 =>
      rw [hm] at h
      dsimp only at h ⊢
      rw [ih _ _ _ h]
      simp

theorem clientAux_ok_shape (api : Api) :
    ∀ (ms : List String) (tr : List (String × Nat)) (le : Option GenError)
      (l : List Transaction),
      (generateForBatchClientAux api ms tr le).2 = Except.ok l →
      ∃ data : List Transaction, l = data.map normalizeTx := by
  intro ms
  induction ms with
  | nil =>
    intro tr le l h
    simp [generateForBatchClientAux] at h
  | cons m ms ih =>
    intro tr le l h
    unfold generateForBatchClientAux at h
    cases hm : api m 1 with
    | ok data =>
      rw [hm] at h
      simp only [Except.ok.injEq] at h
      exact ⟨data, h.symm⟩
    | error e2 =>
      rw [hm] at h
      dsimp only at h
      exact ih _ _ _ h

theorem withRetryAux_calls_prefix {α : Type} (f : Nat → Except GenError α) (maxA : Nat) :
    ∀ (rem attempt : Nat) (calls sleeps : List Nat) (le : Option GenError),
      ∃ rest, (withRetryAux f maxA attempt rem calls sleeps le).1 = calls ++ rest := by
  intro rem
  induction rem with
  | zero =>
    intro attempt calls sleeps le
    exact ⟨[], by simp [withRetryAux]⟩
  | succ rem ih =>
    intro attempt calls sleeps le
    unfold withRetryAux
    cases hf : f attempt with
    | ok v =>
      dsimp only
      exact ⟨[attempt], rfl⟩
    | error e =>
      dsimp only
      split
      · exact ⟨[attempt], rfl⟩
      · obtain ⟨rest, hrest⟩ := ih (attempt + 1) (calls ++ [attempt])
          (sleeps ++ [min 10000 (800 * 2 ^ (attempt - 1))]) (some e)
        exact ⟨[attempt] ++ rest, by rw [hrest]; simp⟩

theorem withRetryAux_sleeps_prefix {α : Type} (f : Nat → Except GenError α) (maxA : Nat) :
    ∀ (rem attempt : Nat) (calls sleeps : List Nat) (le : Option GenError),
      ∃ rest, (withRetryAux f maxA attempt rem calls sleeps le).2.1 = sleeps ++ rest := by
  intro rem
  induction rem with
  | zero =>
    intro attempt calls sleeps le
    exact ⟨[], by simp [withRetryAux]⟩
  | succ rem ih =>
    intro attempt calls sleeps le
    unfold withRetryAux
    cases hf : f attempt with
    | ok v =>
      dsimp only
      exact ⟨[], by simp⟩
    | error e =>
      dsimp only
      split
      · exact ⟨[], by simp⟩
      · obtain ⟨rest, hrest⟩ := ih (attempt + 1) (calls ++ [attempt])
          (sleeps ++ [min 10000 (800 * 2 ^ (attempt - 1))]) (some e)
        exact ⟨[min 10000 (800 * 2 ^ (attempt - 1))] ++ rest, by rw [hrest]; simp⟩

theorem withRetryAux_first_call {α : Type} (f : Nat → Except GenError α) (maxA : Nat)
    (rem attempt : Nat) (calls sleeps : List Nat) (le : Option GenError) :
    ∃ rest, (withRetryAux f maxA attempt (rem + 1) calls sleeps le).1 =
      calls ++ attempt :: rest := by
  unfold withRetryAux
  cases hf : f attempt with
  | ok v =>
    dsimp only
    exact ⟨[], rfl⟩
  | error e =>
    dsimp only
    split
    · exact ⟨[], rfl⟩
    · obtain ⟨rest, hrest⟩ := withRetryAux_calls_prefix f maxA rem (attempt + 1)
        (calls ++ [attempt]) (sleeps ++ [min 10000 (800 * 2 ^ (attempt - 1))]) (some e)
      exact ⟨rest, by rw [hrest]; simp⟩

theorem withRetryAux_calls_len {α : Type} (f : Nat → Except GenError α) (maxA : Nat) :
    ∀ (rem attempt : Nat) (calls sleeps : List Nat) (le : Option GenError),
      (withRetryAux f maxA attempt rem calls sleeps le).1.length ≤ calls.length + rem := by
  intro rem
  induction rem with
  | zero =>
    intro attempt calls sleeps le
    simp [withRetryAux]
  | succ rem ih =>
    intro attempt calls sleeps le
    unfold withRetryAux
    cases hf : f attempt with
    | ok v =>
      dsimp only
      simp only [List.length_append, List.length_cons, List.length_nil]
      omega
    | error e =>
      dsimp only
      split
      · simp only [List.length_append, List.length_cons, List.length_nil]
        omega
      · have h := ih (attempt + 1) (calls ++ [attempt])
          (sleeps ++ [min 10000 (800 * 2 ^ (attempt - 1))]) (some e)
        simp only [List.length_append, List.length_cons, List.length_nil] at h
        omega

-- ### Claim C9

/-- C9 (amended): batching is bounded (at most 5 pages per batch in the
browser extractor, 3 in the server extractor); in the server retry
wrapper a first call failing with a NON-rate-limit error is rethrown
at once (exactly one call, no backoff sleep), while a first call
failing with a rate-limit error is retried (a second attempt is made,
after an 800 ms first backoff), with at most 3 calls in total; the
browser-side model loop never retries any model (its trace is a prefix
of the candidate list, each model called once with attempt 1), and it
surfaces an error only after all three candidate models were tried.
(The claim attributed rate-limit retry to the browser extractor; the
counterexample shows the browser path advances to the next model
without retrying even on a rate-limit failure - only the server path
retries.) -/
theorem C9_retry_and_batching :
    (∀ l : List String, ∀ b ∈ batchesOf 5 l, b.length ≤ 5) ∧
    (∀ l : List String, ∀ b ∈ batchesOf 3 l, b.length ≤ 3) ∧
    (∀ (f : Nat → Except GenError (List Transaction)) (e : GenError),
      f 1 = Except.error e → isRateLimitError e = false →
      withRetry f 3 = ([1], [], Except.error e)) ∧
    (∀ (f : Nat → Except GenError (List Transaction)) (e : GenError),
      f 1 = Except.error e → isRateLimitError e = true →
      (withRetry f 3).2.1.head? = some 800 ∧ 2 ≤ (withRetry f 3).1.length) ∧
    (∀ f : Nat → Except GenError (List Transaction), (withRetry f 3).1.length ≤ 3) ∧
    (∀ api : Api, ∃ k, (generateForBatchClient api).1 =
      (CANDIDATE_MODELS.take k).map (fun m => (m, 1))) ∧
    (∀ (api : Api) (e : GenError), (generateForBatchClient api).2 = Except.error e →
      (generateForBatchClient api).1 = CANDIDATE_MODELS.map (fun m => (m, 1))) := by
  refine ⟨batchesOf_length_le 5, batchesOf_length_le 3, ?_, ?_, ?_, ?_, ?_⟩
  · intro f e hf hrl
    show withRetryAux f 3 1 (2 + 1) [] [] none = ([1], [], Except.error e)
    rw [withRetryAux]
    rw [hf]
    dsimp only
    rw [if_pos]
    · rfl
    · simp [hrl]
  · intro f e hf hrl
    have hstep : withRetry f 3 =
        withRetryAux f 3 2 2 [1] [min 10000 (800 * 2 ^ (1 - 1))] (some e) := by
      show withRetryAux f 3 1 (2 + 1) [] [] none = _
      rw [withRetryAux]
      rw [hf]
      dsimp only
      rw [if_neg]
      · simp
      · simp [hrl]
    have hmin : min 10000 (800 * 2 ^ (1 - 1)) = 800 := by norm_num
    constructor
    · obtain ⟨rest, hrest⟩ := withRetryAux_sleeps_prefix f 3 2 2 [1]
        [min 10000 (800 * 2 ^ (1 - 1))] (some e)
      have h2 : (withRetryAux f 3 2 2 [1] [min 10000 (800 * 2 ^ (1 - 1))] (some e)).2.1 =
          [min 10000 (800 * 2 ^ (1 - 1))] ++ rest := hrest
      rw [hstep, h2, hmin]
      rfl
    · obtain ⟨rest, hrest⟩ := withRetryAux_first_call f 3 1 2 [1]
        [min 10000 (800 * 2 ^ (1 - 1))] (some e)
      have h2 : (withRetryAux f 3 2 2 [1] [min 10000 (800 * 2 ^ (1 - 1))] (some e)).1 =
          [1] ++ 2 :: rest := hrest
      rw [hstep, h2]
      simp
  · intro f
    have h := withRetryAux_calls_len f 3 3 1 [] [] none
    simpa using h
  · intro api
    obtain ⟨k, hk⟩ := clientAux_trace_models api CANDIDATE_MODELS [] none
    exact ⟨k, by simpa using hk⟩
  · intro api e h
    have := clientAux_error_trace api CANDIDATE_MODELS [] none e h
    simpa using this

/-- C9 witness: a non-rate-limit failure is surfaced after exactly one
call, with no backoff sleep. -/
theorem C9_retry_and_batching_witness :
    isRateLimitError otherErr = false ∧
      withRetry (fun _ => Except.error otherErr) 3 =
        ([1], [], Except.error (α := List Transaction) otherErr) := by
  have h : isRateLimitError otherErr = false := by decide
  exact ⟨h, C9_retry_and_batching.2.2.1 (fun _ => Except.error otherErr) otherErr rfl h⟩

/-- C9 counterexample: under an oracle where the first candidate model
is rate-limited on its first attempt and would succeed on a second
attempt, the browser extractor of src/services/geminiService.ts calls
that model exactly once (no retry, no backoff) and moves on through the
other models, surfacing the last fallback error - refuting the claim
that a rate-limited call is automatically retried with backoff. -/
theorem C9_client_no_retry_counterexample :
    isRateLimitError rlErr = true ∧
      cexApiC9 "gemini-2.5-flash" 1 = Except.error rlErr ∧
      cexApiC9 "gemini-2.5-flash" 2 = Except.ok [sampleTx] ∧
      (generateForBatchClient cexApiC9).1 =
        [("gemini-2.5-flash", 1), ("gemini-2.0-flash", 1), ("gemini-2.5-pro", 1)] ∧
      (generateForBatchClient cexApiC9).2 = Except.error otherErr := by
  exact ⟨by decide, rfl, rfl, rfl, rfl⟩

-- ### Claim C10 helper lemmas

theorem allowedCategories_jsTrim : ∀ c ∈ allowedCategories, jsTrim c = c := by decide

theorem normalizeCurrency_other_fields (t : Transaction) :
    (normalizeCurrency t).date = t.date ∧ (normalizeCurrency t).description = t.description ∧
      (normalizeCurrency t).debit = t.debit ∧ (normalizeCurrency t).credit = t.credit ∧
      (normalizeCurrency t).balance = t.balance ∧
      (normalizeCurrency t).category = t.category := by
  rcases t with ⟨d, ds, de, cr, ba, cu, ca⟩
  unfold normalizeCurrency
  cases cu with
  | none => exact ⟨rfl, rfl, rfl, rfl, rfl, rfl⟩
  | some c =>
    dsimp only
    split
    · exact ⟨rfl, rfl, rfl, rfl, rfl, rfl⟩
    · exact ⟨rfl, rfl, rfl, rfl, rfl, rfl⟩

theorem normalizeCurrency_currency (t : Transaction) :
    (normalizeCurrency t).currency =
      (match t.currency with
       | some c => if c = "" then some c else some (jsToUpper (jsTrim c))
       | none => none) := by
  rcases t with ⟨d, ds, de, cr, ba, cu, ca⟩
  unfold normalizeCurrency
  cases cu with
  | none => rfl
  | some c =>
    dsimp only
    split
    · rfl
    · rfl

theorem normalizeCategory_other_fields (t : Transaction) :
    (normalizeCategory t).date = t.date ∧ (normalizeCategory t).description = t.description ∧
      (normalizeCategory t).debit = t.debit ∧ (normalizeCategory t).credit = t.credit ∧
      (normalizeCategory t).balance = t.balance ∧
      (normalizeCategory t).currency = t.currency := by
  rcases t with ⟨d, ds, de, cr, ba, cu, ca⟩
  unfold normalizeCategory
  cases ca with
  | none => exact ⟨rfl, rfl, rfl, rfl, rfl, rfl⟩
  | some c =>
    dsimp only
    split
    · exact ⟨rfl, rfl, rfl, rfl, rfl, rfl⟩
    · split
      · exact ⟨rfl, rfl, rfl, rfl, rfl, rfl⟩
      · split <;> exact ⟨rfl, rfl, rfl, rfl, rfl, rfl⟩

theorem normalizeCategory_category (t : Transaction) :
    (normalizeCategory t).category =
      (match t.category with
       | some c =>
         if c = "" then some c
         else
           if allowedCategories.contains (jsTrim c) then some c
           else
             match allowedCategories.find? (fun a => jsToLower a == jsToLower (jsTrim c)) with
             | some found => some found
             | none => some "Other"
       | none => none) := by
  rcases t with ⟨d, ds, de, cr, ba, cu, ca⟩
  unfold normalizeCategory
  cases ca with
  | none => rfl
  | some c =>
    dsimp only
    split
    · rfl
    · split
      · rfl
      · split <;> rfl

theorem collectAll_mem :
    ∀ (rs : List (Except GenError (List Transaction))) (out : List Transaction),
      collectAll rs = Except.ok out →
      ∀ t ∈ out, ∃ l, Except.ok l ∈ rs ∧ t ∈ l := by
  intro rs
  induction rs with
  | nil =>
    intro out h t ht
    simp [collectAll] at h
    subst h
    simp at ht
  | cons r rs ih =>
    intro out h t ht
    cases r with
    | error e => simp [collectAll] at h
    | ok l =>
      rw [collectAll] at h
      cases hrec : collectAll rs with
      | error e =>
        rw [hrec] at h
        simp at h
      | ok r2 =>
        rw [hrec] at h
        simp only [Except.ok.injEq] at h
        subst h
        rcases List.mem_append.mp ht with hl | hr
        · exact ⟨l, List.mem_cons_self _ _, hl⟩
        · obtain ⟨l2, hl2, ht2⟩ := ih r2 hrec t hr
          exact ⟨l2, List.mem_cons_of_mem _ hl2, ht2⟩

-- ### Claim C10

/-- C10 (amended): every record returned by the browser extractor is
the normalization of a raw record; normalization leaves date,
description, debit, credit and balance unchanged; a present nonempty
currency is trimmed and uppercased (an empty one is kept); and for a
present nonempty category, the TRIMMED returned category is an element
of the fixed 17-element allowed set - a value already in the set after
trimming is returned unchanged, whitespace included, otherwise it is
replaced by its case-insensitive match in the set or by Other.  (The
claim said the returned category itself is an element of the set; the
counterexample " Rent " is returned untrimmed and is not an element.) -/
theorem C10_normalization :
    allowedCategories.length = 17 ∧
    (∀ t : Transaction, (normalizeTx t).date = t.date ∧
      (normalizeTx t).description = t.description ∧
      (normalizeTx t).debit = t.debit ∧ (normalizeTx t).credit = t.credit ∧
      (normalizeTx t).balance = t.balance) ∧
    (∀ t : Transaction, (normalizeTx t).currency =
      (match t.currency with
       | some c => if c = "" then some c else some (jsToUpper (jsTrim c))
       | none => none)) ∧
    (∀ (t : Transaction) (c : String), t.category = some c → c ≠ "" →
      ∃ c2, (normalizeTx t).category = some c2 ∧
        jsTrim c2 ∈ allowedCategories ∧
        (jsTrim c ∈ allowedCategories → c2 = c)) ∧
    (∀ t : Transaction, t.category = none → (normalizeTx t).category = none) ∧
    (∀ (apis : Nat → Api) (images : List String) (out : List Transaction),
      extractTransactionsFromImagesC apis images = Except.ok out →
      ∀ t ∈ out, ∃ raw, t = normalizeTx raw) := by
  have hcat : ∀ t : Transaction, (normalizeTx t).category =
      (match t.category with
       | some c =>
         if c = "" then some c
         else
           if allowedCategories.contains (jsTrim c) then some c
           else
             match allowedCategories.find? (fun a => jsToLower a == jsToLower (jsTrim c)) with
             | some found => some found
             | none => some "Other"
       | none => none) := by
    intro t
    show (normalizeCategory (normalizeCurrency t)).category = _
    rw [normalizeCategory_category]
    rw [(normalizeCurrency_other_fields t).2.2.2.2.2]
  refine ⟨rfl, ?_, ?_, ?_, ?_, ?_⟩
  · intro t
    have h1 := normalizeCurrency_other_fields t
    have h2 := normalizeCategory_other_fields (normalizeCurrency t)
    exact ⟨h2.1.trans h1.1, h2.2.1.trans h1.2.1, h2.2.2.1.trans h1.2.2.1,
      h2.2.2.2.1.trans h1.2.2.2.1, h2.2.2.2.2.1.trans h1.2.2.2.2.1⟩
  · intro t
    have h2 := (normalizeCategory_other_fields (normalizeCurrency t)).2.2.2.2.2
    show (normalizeCategory (normalizeCurrency t)).currency = _
    rw [h2, normalizeCurrency_currency]
  · intro t c hc hne
    have h := hcat t
    rw [hc] at h
    dsimp only at h
    rw [if_neg hne] at h
    by_cases hcon : allowedCategories.contains (jsTrim c) = true
    · rw [if_pos hcon] at h
      refine ⟨c, h, ?_, fun _ => rfl⟩
      have : allowedCategories.elem (jsTrim c) = true := hcon
      exact List.mem_of_elem_eq_true this
    · rw [if_neg hcon] at h
      cases hfind : allowedCategories.find? (fun a => jsToLower a == jsToLower (jsTrim c)) with
      | some found =>
        rw [hfind] at h
        have hmemf : found ∈ allowedCategories := List.mem_of_find?_eq_some hfind
        refine ⟨found, h, ?_, ?_⟩
        · rw [allowedCategories_jsTrim found hmemf]
          exact hmemf
        · intro hmem
          exact absurd (List.elem_eq_true_of_mem hmem) hcon
      | none =>
        rw [hfind] at h
        refine ⟨"Other", h, by decide, ?_⟩
        intro hmem
        exact absurd (List.elem_eq_true_of_mem hmem) hcon
  · intro t hc
    have h := hcat t
    rw [hc] at h
    exact h
  · intro apis images out h t ht
    obtain ⟨l, hl, htl⟩ := collectAll_mem _ out h t ht
    rcases List.mem_map.mp hl with ⟨i, _, hi⟩
    obtain ⟨data, hdata⟩ := clientAux_ok_shape (apis i) CANDIDATE_MODELS [] none l hi
    subst hdata
    rcases List.mem_map.mp htl with ⟨raw, _, hraw⟩
    exact ⟨raw, hraw.symm⟩

/-- C10 witness: the raw record with category " Rent " (trimmed value
in the set) keeps its category unchanged, and the trimmed returned
category is in the set. -/
theorem C10_normalization_witness :
    rawTxC10.category = some " Rent " ∧ " Rent " ≠ "" ∧
      ∃ c2, (normalizeTx rawTxC10).category = some c2 ∧
        jsTrim c2 ∈ allowedCategories ∧
        (jsTrim " Rent " ∈ allowedCategories → c2 = " Rent ") :=
  ⟨rfl, by decide, C10_normalization.2.2.2.1 rawTxC10 " Rent " rfl (by decide)⟩

/-- C10 counterexample: the extractor returns the category " Rent "
verbatim (its trim "Rent" is in the allowed set, so the untrimmed
original passes through), and " Rent " is NOT an element of the
17-element allowed category set, refuting the claim that the returned
category is always an element of the set.  The currency " inr " is
trimmed and uppercased as claimed. -/
theorem C10_category_passthrough_counterexample :
    extractTransactionsFromImagesC (fun _ => apiC10) ["page1"] =
      Except.ok [{ date := "2024-01-02", description := "Monthly rent", debit := some 1200,
                   credit := none, balance := none, currency := some "INR",
                   category := some " Rent " }] ∧
      allowedCategories.contains " Rent " = false ∧
      jsTrim " Rent " ∈ allowedCategories := by
  exact ⟨rfl, by decide, by decide⟩
